import Mathlib

/-!
# austere_terminal: a one-byte-at-a-time relay between a terminal and a serial device

A shallow embedding of `src/tools/austere_terminal.c`.  The program talks to its
environment only through `open`, `fcntl`, `read`, `write`, `perror` and `exit`.
The environment is a `Kernel` over an arbitrary world type; the process state
`Proc` carries the world, `errno`, the one-byte buffer `ch`, the ordered trace of
every call the program has made (with its outcome) and the exit status once
`exit` has been called.  The relay loop may run forever, so it is run on fuel:
one unit of fuel is one iteration of `for(;;)`.
-/

namespace AustereTerminal

/-- One byte of data, the unit of transfer of `read(.., 1)` and `write(.., 1)`. -/
abbrev Byte := Fin 256

/-- Descriptor of standard input (`unistd.h`). -/
def STDIN_FILENO : Int := 0

/-- Descriptor of standard output (`unistd.h`). -/
def STDOUT_FILENO : Int := 1

/-- The errno value of a non-blocking read with no data (`errno.h`, Linux). -/
def EAGAIN : Int := 11

/-- Access mode flag of `open` (`fcntl.h`, Linux). -/
def O_RDWR : Int := 2

/-- File status flag for non-blocking mode (`fcntl.h`, Linux). -/
def O_NONBLOCK : Int := 2048

/-- The `fcntl` command reading the file status flags (`fcntl.h`, Linux). -/
def F_GETFL : Int := 3

/-- The `fcntl` command setting the file status flags (`fcntl.h`, Linux). -/
def F_SETFL : Int := 4

/-- Outcome of `open` or `fcntl`: failure (the call returns -1 and sets errno)
or success with a non-negative value. -/
inductive CallOutcome where
  | fail (errno : Int)
  | ok (v : Nat)
deriving DecidableEq, Repr

/-- Outcome of `read(fd, &ch, 1)`: failure (returns -1, sets errno), end of
stream (returns 0), or one byte stored in the buffer (returns 1). -/
inductive ReadOutcome where
  | fail (errno : Int)
  | eof
  | data (b : Byte)
deriving DecidableEq, Repr

/-- Outcome of `write(fd, &ch, 1)`: failure (returns -1, sets errno), nothing
transferred (returns 0), or the byte transferred (returns 1). -/
inductive WriteOutcome where
  | fail (errno : Int)
  | zero
  | done
deriving DecidableEq, Repr

/-- The C return value of `open` / `fcntl`. -/
def CallOutcome.ret : CallOutcome → Int
  | .fail _ => -1
  | .ok v => (v : Int)

/-- The value of errno after `open` / `fcntl`, given its value before. -/
def CallOutcome.errnoAfter : CallOutcome → Int → Int
  | .fail e, _ => e
  | .ok _, old => old

/-- The C return value (`ssize_t`) of `read`. -/
def ReadOutcome.ret : ReadOutcome → Int
  | .fail _ => -1
  | .eof => 0
  | .data _ => 1

/-- The value of errno after `read`, given its value before. -/
def ReadOutcome.errnoAfter : ReadOutcome → Int → Int
  | .fail e, _ => e
  | _, old => old

/-- The content of the first byte of `ch` after `read(fd, &ch, 1)`, given its
content before: only a read of one byte stores anything. -/
def ReadOutcome.store : ReadOutcome → Byte → Byte
  | .data b, _ => b
  | _, old => old

/-- The C return value (`ssize_t`) of `write`. -/
def WriteOutcome.ret : WriteOutcome → Int
  | .fail _ => -1
  | .zero => 0
  | .done => 1

/-- The value of errno after `write`, given its value before. -/
def WriteOutcome.errnoAfter : WriteOutcome → Int → Int
  | .fail e, _ => e
  | _, old => old

/-- One call made by the program, with its arguments and its outcome.
`perrorCall` carries the label passed to `perror` and the value of errno it
reports. -/
inductive Event where
  | openCall (path : String) (flags : Int) (r : CallOutcome)
  | fcntlCall (fd : Int) (cmd : Int) (arg : Int) (r : CallOutcome)
  | readCall (fd : Int) (r : ReadOutcome)
  | writeCall (fd : Int) (b : Byte) (r : WriteOutcome)
  | perrorCall (label : String) (errno : Int)
deriving DecidableEq, Repr

/-- The operating system as seen by the program: every call maps the world
before the call to an outcome and the world after it. -/
structure Kernel (σ : Type) where
  sysOpen : String → Int → σ → CallOutcome × σ
  sysFcntl : Int → Int → Int → σ → CallOutcome × σ
  sysRead : Int → σ → ReadOutcome × σ
  sysWrite : Int → Byte → σ → WriteOutcome × σ

/-- State of the running process.  `ch` is the first byte of the variable
`int ch` (the only byte `read` and `write` touch); `status` is the exit status
seen by the parent once `exit` has been called. -/
structure Proc (σ : Type) where
  world : σ
  errno : Int
  ch : Byte
  trace : List Event
  status : Option Int

/-- Process state at the entry of `main`: nothing called yet; `ch0` is the
indeterminate content of the uninitialised `ch`. -/
def Proc.init {σ : Type} (w : σ) (ch0 : Byte) : Proc σ :=
  { world := w, errno := 0, ch := ch0, trace := [], status := none }

/-- The call `open(path, flags)`. -/
def c_open {σ : Type} (k : Kernel σ) (path : String) (flags : Int) (p : Proc σ) :
    Int × Proc σ :=
  let r := k.sysOpen path flags p.world
  (r.1.ret, { p with world := r.2, errno := r.1.errnoAfter p.errno,
                     trace := p.trace ++ [Event.openCall path flags r.1] })

/-- The call `fcntl(fd, cmd, arg)`. -/
def c_fcntl {σ : Type} (k : Kernel σ) (fd cmd arg : Int) (p : Proc σ) : Int × Proc σ :=
  let r := k.sysFcntl fd cmd arg p.world
  (r.1.ret, { p with world := r.2, errno := r.1.errnoAfter p.errno,
                     trace := p.trace ++ [Event.fcntlCall fd cmd arg r.1] })

/-- The call `read(fd, &ch, 1)`. -/
def c_read {σ : Type} (k : Kernel σ) (fd : Int) (p : Proc σ) : Int × Proc σ :=
  let r := k.sysRead fd p.world
  (r.1.ret, { p with world := r.2, errno := r.1.errnoAfter p.errno, ch := r.1.store p.ch,
                     trace := p.trace ++ [Event.readCall fd r.1] })

/-- The call `write(fd, &ch, 1)`. -/
def c_write {σ : Type} (k : Kernel σ) (fd : Int) (p : Proc σ) : Int × Proc σ :=
  let r := k.sysWrite fd p.ch p.world
  (r.1.ret, { p with world := r.2, errno := r.1.errnoAfter p.errno,
                     trace := p.trace ++ [Event.writeCall fd p.ch r.1] })

/-- The call `perror(label)`: a diagnostic on standard error that names `label`
and the current errno. -/
def perror {σ : Type} (label : String) (p : Proc σ) : Proc σ :=
  { p with trace := p.trace ++ [Event.perrorCall label p.errno] }

/-- The call `exit(status)`: the parent sees the low eight bits of `status`. -/
def exit {σ : Type} (status : Int) (p : Proc σ) : Proc σ :=
  { p with status := some (status % 256) }

/-- The function `nonblock` of the source:
`flags = fcntl(fd, F_GETFL, 0); return fcntl(fd, F_SETFL, flags | O_NONBLOCK);` -/
def nonblock {σ : Type} (k : Kernel σ) (fd : Int) (p : Proc σ) : Int × Proc σ :=
  let g := c_fcntl k fd F_GETFL 0 p
  c_fcntl k fd F_SETFL (Int.lor g.1 O_NONBLOCK) g.2

/-- Lines 39 to 54 of the source, the first half of the loop body: read one
byte from standard input and write it to the device.  The Boolean is `true`
when a `break` was taken. -/
def stdinToDevice {σ : Type} (k : Kernel σ) (fd : Int) (p : Proc σ) : Bool × Proc σ :=
  let r := c_read k STDIN_FILENO p
  if r.1 = -1 ∧ r.2.errno ≠ EAGAIN then
    (true, perror "read(STDIN_FILENO)" r.2)
  else if r.1 = 1 then
    let w := c_write k fd r.2
    if w.1 = -1 then
      (true, perror "write(fd)" w.2)
    else if w.1 ≤ 0 then
      (true, w.2)
    else
      (false, w.2)
  else
    (false, r.2)

/-- Lines 56 to 71 of the source, the second half of the loop body: read one
byte from the device and write it to standard output.  The Boolean is `true`
when a `break` was taken. -/
def deviceToStdout {σ : Type} (k : Kernel σ) (fd : Int) (p : Proc σ) : Bool × Proc σ :=
  let r := c_read k fd p
  if r.1 = -1 ∧ r.2.errno ≠ EAGAIN then
    (true, perror "read(fd)" r.2)
  else if r.1 = 1 then
    let w := c_write k STDOUT_FILENO r.2
    if w.1 = -1 then
      (true, perror "write(STDOUT_FILENO)" w.2)
    else if w.1 ≤ 0 then
      (true, w.2)
    else
      (false, w.2)
  else
    (false, r.2)

/-- One pass through the body of `for(;;)`: the first half, then (unless it took
a `break`) the second half.  The Boolean is `true` when the loop is left. -/
def iteration {σ : Type} (k : Kernel σ) (fd : Int) (p : Proc σ) : Bool × Proc σ :=
  let a := stdinToDevice k fd p
  if a.1 then a else deviceToStdout k fd a.2

/-- The loop `for(;;)` run for at most `fuel` iterations.  The Boolean is `true`
when a `break` left the loop, `false` when the fuel ran out with the loop still
running. -/
def relayLoop {σ : Type} (k : Kernel σ) (fd : Int) : Nat → Proc σ → Bool × Proc σ
  | 0, p => (false, p)
  | fuel + 1, p =>
    let s := iteration k fd p
    if s.1 then s else relayLoop k fd fuel s.2

/-- The function `main` of the source, with the relay loop run for at most
`fuel` iterations.  A result with `status = none` is a process still in the
loop. -/
def main {σ : Type} (k : Kernel σ) (fuel : Nat) (w : σ) (ch0 : Byte) : Proc σ :=
  let o := c_open k "/dev/ttyUSB0" O_RDWR (Proc.init w ch0)
  if o.1 = -1 then
    exit (-1) (perror "open()" o.2)
  else
    let a := nonblock k o.1 o.2
    if a.1 = -1 then
      exit (-1) (perror "nonblock(fd)" a.2)
    else
      let b := nonblock k STDIN_FILENO a.2
      if b.1 = -1 then
        exit (-1) (perror "nonblock(STDIN_FILENO)" b.2)
      else
        let g := c_fcntl k o.1 F_GETFL 0 b.2
        let s := c_fcntl k o.1 F_SETFL (Int.lor g.1 O_NONBLOCK) g.2
        if s.1 = -1 then
          exit (-1) (perror "fcntl()" s.2)
        else
          let l := relayLoop k o.1 fuel s.2
          if l.1 then exit 0 l.2 else l.2

/-- The common shape of the two halves of the loop body: read one byte from
`src`, write it to `dst`, with the labels the source gives to `perror`. -/
def transfer {σ : Type} (k : Kernel σ) (src dst : Int) (lr lw : String) (p : Proc σ) :
    Bool × Proc σ :=
  let r := c_read k src p
  if r.1 = -1 ∧ r.2.errno ≠ EAGAIN then
    (true, perror lr r.2)
  else if r.1 = 1 then
    let w := c_write k dst r.2
    if w.1 = -1 then
      (true, perror lw w.2)
    else if w.1 ≤ 0 then
      (true, w.2)
    else
      (false, w.2)
  else
    (false, r.2)

/-- The call is a `read`. -/
def Event.isRead : Event → Bool
  | .readCall _ _ => true
  | _ => false

/-- The call is a `write`. -/
def Event.isWrite : Event → Bool
  | .writeCall _ _ _ => true
  | _ => false

/-- The call is a `read` or a `write`, the two calls that move bytes. -/
def Event.isTransfer (e : Event) : Bool := e.isRead || e.isWrite

/-- The call is a `perror` diagnostic. -/
def Event.isPerror : Event → Bool
  | .perrorCall _ _ => true
  | _ => false

/-- The terminating calls of the relay loop: a `read` that fails with an errno
other than `EAGAIN`, a `write` that fails, a `write` that transfers nothing. -/
def Event.terminating : Event → Bool
  | .readCall _ (.fail e) => decide (e ≠ EAGAIN)
  | .writeCall _ _ (.fail _) => true
  | .writeCall _ _ .zero => true
  | _ => false

/-- The bytes the trace shows as transferred by `write` to descriptor `fd`, in
call order. -/
def writtenTo (fd : Int) (t : List Event) : List Byte :=
  t.filterMap fun e =>
    match e with
    | .writeCall f b .done => if f = fd then some b else none
    | _ => none

/-- The calls made between process state `p` and a later state `q`. -/
def newEvents {σ : Type} (p q : Proc σ) : List Event := q.trace.drop p.trace.length

/-- Result of the first startup step, `open("/dev/ttyUSB0", O_RDWR)`. -/
def openStage {σ : Type} (k : Kernel σ) (w : σ) (ch0 : Byte) : Int × Proc σ :=
  c_open k "/dev/ttyUSB0" O_RDWR (Proc.init w ch0)

/-- Result of the second startup step, `nonblock(fd)`. -/
def deviceModeStage {σ : Type} (k : Kernel σ) (w : σ) (ch0 : Byte) : Int × Proc σ :=
  nonblock k (openStage k w ch0).1 (openStage k w ch0).2

/-- Result of the third startup step, `nonblock(STDIN_FILENO)`. -/
def stdinModeStage {σ : Type} (k : Kernel σ) (w : σ) (ch0 : Byte) : Int × Proc σ :=
  nonblock k STDIN_FILENO (deviceModeStage k w ch0).2

/-- Result of the fourth startup step, the second `F_GETFL` / `F_SETFL` pair on
the device (lines 29 to 33). -/
def fcntlStage {σ : Type} (k : Kernel σ) (w : σ) (ch0 : Byte) : Int × Proc σ :=
  let g := c_fcntl k (openStage k w ch0).1 F_GETFL 0 (stdinModeStage k w ch0).2
  c_fcntl k (openStage k w ch0).1 F_SETFL (Int.lor g.1 O_NONBLOCK) g.2

/-- Opening the device path fails. -/
def openFails {σ : Type} (k : Kernel σ) (w : σ) (ch0 : Byte) : Prop :=
  (openStage k w ch0).1 = -1

/-- The device is opened and putting it into non-blocking mode fails. -/
def deviceModeFails {σ : Type} (k : Kernel σ) (w : σ) (ch0 : Byte) : Prop :=
  (openStage k w ch0).1 ≠ -1 ∧ (deviceModeStage k w ch0).1 = -1

/-- The first two startup steps succeed and putting standard input into
non-blocking mode fails. -/
def stdinModeFails {σ : Type} (k : Kernel σ) (w : σ) (ch0 : Byte) : Prop :=
  (openStage k w ch0).1 ≠ -1 ∧ (deviceModeStage k w ch0).1 ≠ -1 ∧
    (stdinModeStage k w ch0).1 = -1

/-- The first three startup steps succeed and the last `fcntl` fails. -/
def fcntlFails {σ : Type} (k : Kernel σ) (w : σ) (ch0 : Byte) : Prop :=
  (openStage k w ch0).1 ≠ -1 ∧ (deviceModeStage k w ch0).1 ≠ -1 ∧
    (stdinModeStage k w ch0).1 ≠ -1 ∧ (fcntlStage k w ch0).1 = -1

/-- All four startup steps succeed: the relay loop is entered. -/
def startupOk {σ : Type} (k : Kernel σ) (w : σ) (ch0 : Byte) : Prop :=
  (openStage k w ch0).1 ≠ -1 ∧ (deviceModeStage k w ch0).1 ≠ -1 ∧
    (stdinModeStage k w ch0).1 ≠ -1 ∧ (fcntlStage k w ch0).1 ≠ -1

/-- The descriptor of the device, as returned by `open`. -/
def deviceFd {σ : Type} (k : Kernel σ) (w : σ) (ch0 : Byte) : Int := (openStage k w ch0).1

/-- The process state with which the relay loop is entered. -/
def loopEntry {σ : Type} (k : Kernel σ) (w : σ) (ch0 : Byte) : Proc σ := (fcntlStage k w ch0).2

instance {σ : Type} (k : Kernel σ) (w : σ) (ch0 : Byte) : Decidable (openFails k w ch0) := by
  unfold openFails; infer_instance

instance {σ : Type} (k : Kernel σ) (w : σ) (ch0 : Byte) : Decidable (deviceModeFails k w ch0) := by
  unfold deviceModeFails; infer_instance

instance {σ : Type} (k : Kernel σ) (w : σ) (ch0 : Byte) : Decidable (stdinModeFails k w ch0) := by
  unfold stdinModeFails; infer_instance

instance {σ : Type} (k : Kernel σ) (w : σ) (ch0 : Byte) : Decidable (fcntlFails k w ch0) := by
  unfold fcntlFails; infer_instance

instance {σ : Type} (k : Kernel σ) (w : σ) (ch0 : Byte) : Decidable (startupOk k w ch0) := by
  unfold startupOk; infer_instance

/-- The descriptor the simulated kernels give to the device: the lowest one
free when 0, 1 and 2 are the standard streams. -/
def DEVICE_FD : Int := 3

/-- The errno value of a call on a descriptor that is not open (`errno.h`). -/
def EBADF : Int := 9

/-- The errno value of a write on a pipe with no reader (`errno.h`). -/
def EPIPE : Int := 32

/-- The errno value of a missing file (`errno.h`). -/
def ENOENT : Int := 2

/-- A simulated terminal and serial line.  `stdin` holds the bytes still to be
delivered on standard input, `line` the bytes the device has ready to be read,
`sent` the bytes written to the device, `stdout` the bytes written to standard
output; with `echo` the device returns every byte written to it. -/
structure Wire where
  stdin : List Byte
  line : List Byte
  sent : List Byte
  stdout : List Byte
  echo : Bool
deriving DecidableEq, Repr

/-- The kernel of the simulated terminal: `open` gives `DEVICE_FD`, `fcntl`
succeeds, a read delivers the next pending byte of its source or reports
`EAGAIN` when there is none, and every write succeeds with one byte.  A byte
written to an echoing device is readable from it at once. -/
def wireKernel : Kernel Wire where
  sysOpen := fun _ _ w => (.ok 3, w)
  sysFcntl := fun _ _ _ w => (.ok 0, w)
  sysRead := fun fd w =>
    if fd = STDIN_FILENO then
      match w.stdin with
      | [] => (.fail EAGAIN, w)
      | b :: t => (.data b, { w with stdin := t })
    else if fd = DEVICE_FD then
      match w.line with
      | [] => (.fail EAGAIN, w)
      | b :: t => (.data b, { w with line := t })
    else (.fail EBADF, w)
  sysWrite := fun fd b w =>
    if fd = DEVICE_FD then
      (.done, { w with sent := w.sent ++ [b], line := if w.echo then w.line ++ [b] else w.line })
    else if fd = STDOUT_FILENO then
      (.done, { w with stdout := w.stdout ++ [b] })
    else (.fail EBADF, w)

/-- An echoing device with the bytes `bs` pending on standard input and nothing
yet transferred. -/
def echoWorld (bs : List Byte) : Wire :=
  { stdin := bs, line := [], sent := [], stdout := [], echo := true }

/-- A kernel scripted by position: the outcomes of `open`, of the successive
`fcntl` calls, and of the successive `read` and `write` calls are taken from the
lists in the world; a call beyond its list succeeds (`fcntl`), reports `EAGAIN`
(`read`) or transfers its byte (`write`). -/
structure Script where
  opens : CallOutcome
  fcntls : List CallOutcome
  reads : List ReadOutcome
  writes : List WriteOutcome
deriving DecidableEq, Repr

/-- The kernel that plays a `Script`. -/
def scriptKernel : Kernel Script where
  sysOpen := fun _ _ w => (w.opens, w)
  sysFcntl := fun _ _ _ w =>
    match w.fcntls with
    | [] => (.ok 0, w)
    | r :: t => (r, { w with fcntls := t })
  sysRead := fun _ w =>
    match w.reads with
    | [] => (.fail EAGAIN, w)
    | r :: t => (r, { w with reads := t })
  sysWrite := fun _ _ w =>
    match w.writes with
    | [] => (.done, w)
    | r :: t => (r, { w with writes := t })

/-- The runs one half of the loop body can make, as the calls made and whether
a `break` was taken: the six combinations of the outcome of the read and of
the write that follows a read of one byte. -/
inductive HalfRun (src dst : Int) (lr lw : String) : List Event → Bool → Prop where
  | readError (e : Int) (h : e ≠ EAGAIN) :
      HalfRun src dst lr lw [.readCall src (.fail e), .perrorCall lr e] true
  | noData : HalfRun src dst lr lw [.readCall src (.fail EAGAIN)] false
  | endOfStream : HalfRun src dst lr lw [.readCall src .eof] false
  | writeError (b : Byte) (e : Int) :
      HalfRun src dst lr lw
        [.readCall src (.data b), .writeCall dst b (.fail e), .perrorCall lw e] true
  | writeZero (b : Byte) :
      HalfRun src dst lr lw [.readCall src (.data b), .writeCall dst b .zero] true
  | forwarded (b : Byte) :
      HalfRun src dst lr lw [.readCall src (.data b), .writeCall dst b .done] false

/-- The runs one iteration of the loop can make: the first half takes a
`break`, or it does not and the second half follows. -/
inductive IterRun (fd : Int) : List Event → Bool → Prop where
  | stopFirst (a : List Event)
      (h : HalfRun STDIN_FILENO fd "read(STDIN_FILENO)" "write(fd)" a true) : IterRun fd a true
  | both (a b : List Event) (br : Bool)
      (h1 : HalfRun STDIN_FILENO fd "read(STDIN_FILENO)" "write(fd)" a false)
      (h2 : HalfRun fd STDOUT_FILENO "read(fd)" "write(STDOUT_FILENO)" b br) :
      IterRun fd (a ++ b) br

/-- The runs the loop can make on finite fuel: iterations that do not leave the
loop, ended by the fuel running out or by an iteration that leaves the loop. -/
inductive LoopRun (fd : Int) : List Event → Bool → Prop where
  | outOfFuel : LoopRun fd [] false
  | stop (a : List Event) (h : IterRun fd a true) : LoopRun fd a true
  | step (a rest : List Event) (br : Bool) (h1 : IterRun fd a false)
      (h2 : LoopRun fd rest br) : LoopRun fd (a ++ rest) br

/-- What follows a terminating call `c` made by one half of the loop body:
the diagnostic of a failed read or write, labelled for that call and carrying
its errno, or nothing at all after a write of zero bytes. -/
def After (src dst : Int) (lr lw : String) (c : Event) (post : List Event) : Prop :=
  (∃ e, c = .readCall src (.fail e) ∧ post = [.perrorCall lr e]) ∨
  (∃ b e, c = .writeCall dst b (.fail e) ∧ post = [.perrorCall lw e]) ∨
  (∃ b, c = .writeCall dst b .zero ∧ post = [])

/-- What follows a terminating call of the relay loop with device descriptor
`fd`, for either half of the loop body. -/
def Aftermath (fd : Int) (c : Event) (post : List Event) : Prop :=
  After STDIN_FILENO fd "read(STDIN_FILENO)" "write(fd)" c post ∨
  After fd STDOUT_FILENO "read(fd)" "write(STDOUT_FILENO)" c post

/-- Every terminating call in the trace is followed by its aftermath and
nothing else. -/
def Settled (fd : Int) (t : List Event) : Prop :=
  ∀ pre c post, t = pre ++ c :: post → c.terminating = true → Aftermath fd c post

/-- No call in the trace is terminating and no diagnostic is printed. -/
def Calm (t : List Event) : Prop :=
  ∀ e ∈ t, e.terminating = false ∧ e.isPerror = false

/-- The call is one of the startup calls, `open` or `fcntl`. -/
def Event.isSetup : Event → Bool
  | .openCall _ _ _ => true
  | .fcntlCall _ _ _ _ => true
  | _ => false

/-- A script in which the device path cannot be opened. -/
def missingDevice : Script :=
  { opens := .fail ENOENT, fcntls := [], reads := [], writes := [] }

/-- A script in which startup succeeds, standard input delivers the byte 65 and
the write to the device transfers nothing. -/
def zeroWrite : Script :=
  { opens := .ok 3, fcntls := [], reads := [.data 65], writes := [.zero] }

/-- A script in which startup succeeds and the first read on standard input
fails with `EBADF`. -/
def stdinBroken : Script :=
  { opens := .ok 3, fcntls := [], reads := [.fail EBADF], writes := [] }

/-- A script in which one byte goes from standard input to the device, then the
device delivers a byte and the write to standard output fails with `EPIPE`. -/
def stdoutBroken : Script :=
  { opens := .ok 3, fcntls := [], reads := [.data 65, .data 66], writes := [.done, .fail EPIPE] }

/-- The read moved no byte and is no error: it reported `EAGAIN` or the end of
the stream. -/
def ReadOutcome.nothing : ReadOutcome → Bool
  | .fail e => decide (e = EAGAIN)
  | .eof => true
  | .data _ => false

/-- In each of the next `n` iterations from state `p`, the read on standard
input has outcome `r1` and the read on the device, made in the world the first
read leaves (no write comes between the two when `r1` carries no byte), has
outcome `r2`. -/
def readsGive {σ : Type} (k : Kernel σ) (fd : Int) (r1 r2 : ReadOutcome) :
    Nat → Proc σ → Bool
  | 0, _ => true
  | n + 1, p =>
    decide ((k.sysRead STDIN_FILENO p.world).1 = r1) &&
    decide ((k.sysRead fd (k.sysRead STDIN_FILENO p.world).2).1 = r2) &&
    readsGive k fd r1 r2 n (iteration k fd p).2

/-- A script in which, after startup, the first six reads report `EAGAIN`. -/
def idleScript : Script :=
  { opens := .ok 3, fcntls := [], reads := List.replicate 6 (.fail EAGAIN), writes := [] }

/-- A script in which, after startup, the first six reads return 0. -/
def closedScript : Script :=
  { opens := .ok 3, fcntls := [], reads := List.replicate 6 .eof, writes := [] }

/-- Every `write` call the trace shows on descriptor `fd`, in call order, as
the byte passed and the outcome. -/
def writeCalls (fd : Int) (t : List Event) : List (Byte × WriteOutcome) :=
  t.filterMap fun e =>
    match e with
    | .writeCall f b o => if f = fd then some (b, o) else none
    | _ => none

/-- A terminal on which nothing is typed, with a device that has the bytes `ds`
ready to be read. -/
def deviceOnlyWorld (ds : List Byte) (echo : Bool) : Wire :=
  { stdin := [], line := ds, sent := [], stdout := [], echo := echo }

/-- A terminal on which the bytes `bs` are typed, with a device that never has
anything to be read. -/
def stdinOnlyWorld (bs : List Byte) : Wire :=
  { stdin := bs, line := [], sent := [], stdout := [], echo := false }

/-! ## Basic facts about the two halves of the loop body -/

theorem stdinToDevice_eq_transfer {σ : Type} (k : Kernel σ) (fd : Int) (p : Proc σ) :
    stdinToDevice k fd p = transfer k STDIN_FILENO fd "read(STDIN_FILENO)" "write(fd)" p := rfl

theorem deviceToStdout_eq_transfer {σ : Type} (k : Kernel σ) (fd : Int) (p : Proc σ) :
    deviceToStdout k fd p = transfer k fd STDOUT_FILENO "read(fd)" "write(STDOUT_FILENO)" p := rfl

theorem transfer_run {σ : Type} (k : Kernel σ) (src dst : Int) (lr lw : String) (p : Proc σ) :
    ∃ evs, (transfer k src dst lr lw p).2.trace = p.trace ++ evs ∧
      HalfRun src dst lr lw evs (transfer k src dst lr lw p).1 := by
  unfold transfer c_read c_write perror
  rcases hr : k.sysRead src p.world with ⟨ro, w1⟩
  cases ro with
  | fail e =>
    by_cases he : e = EAGAIN
    · subst he
      exact ⟨[.readCall src (.fail EAGAIN)], by simp [ReadOutcome.ret, ReadOutcome.errnoAfter],
        by simpa [ReadOutcome.ret, ReadOutcome.errnoAfter] using HalfRun.noData⟩
    · exact ⟨[.readCall src (.fail e), .perrorCall lr e],
        by simp [ReadOutcome.ret, ReadOutcome.errnoAfter, he],
        by simpa [ReadOutcome.ret, ReadOutcome.errnoAfter, he] using HalfRun.readError e he⟩
  | eof =>
    exact ⟨[.readCall src .eof], by simp [ReadOutcome.ret],
      by simpa [ReadOutcome.ret] using HalfRun.endOfStream⟩
  | data b =>
    rcases hw : k.sysWrite dst b w1 with ⟨wo, w2⟩
    cases wo with
    | fail e =>
      exact ⟨[.readCall src (.data b), .writeCall dst b (.fail e), .perrorCall lw e],
        by simp [ReadOutcome.ret, ReadOutcome.store, WriteOutcome.ret, WriteOutcome.errnoAfter, hw],
        by simpa [ReadOutcome.ret, ReadOutcome.store, WriteOutcome.ret, hw]
          using HalfRun.writeError b e⟩
    | zero =>
      exact ⟨[.readCall src (.data b), .writeCall dst b .zero],
        by simp [ReadOutcome.ret, ReadOutcome.store, WriteOutcome.ret, hw],
        by simpa [ReadOutcome.ret, ReadOutcome.store, WriteOutcome.ret, hw]
          using HalfRun.writeZero b⟩
    | done =>
      exact ⟨[.readCall src (.data b), .writeCall dst b .done],
        by simp [ReadOutcome.ret, ReadOutcome.store, WriteOutcome.ret, hw],
        by simpa [ReadOutcome.ret, ReadOutcome.store, WriteOutcome.ret, hw]
          using HalfRun.forwarded b⟩

theorem iteration_run {σ : Type} (k : Kernel σ) (fd : Int) (p : Proc σ) :
    ∃ evs, (iteration k fd p).2.trace = p.trace ++ evs ∧
      IterRun fd evs (iteration k fd p).1 := by
  obtain ⟨a, ha, hra⟩ := transfer_run k STDIN_FILENO fd "read(STDIN_FILENO)" "write(fd)" p
  rw [← stdinToDevice_eq_transfer] at ha hra
  unfold iteration
  by_cases hb : (stdinToDevice k fd p).1 = true
  · simp only [hb, if_true]
    exact ⟨a, ha, IterRun.stopFirst a (hb ▸ hra)⟩
  · have hb' : (stdinToDevice k fd p).1 = false := by simpa using hb
    obtain ⟨b, hb2, hrb⟩ := transfer_run k fd STDOUT_FILENO "read(fd)" "write(STDOUT_FILENO)"
      (stdinToDevice k fd p).2
    rw [← deviceToStdout_eq_transfer] at hb2 hrb
    simp only [hb', Bool.false_eq_true, if_false]
    refine ⟨a ++ b, ?_, IterRun.both a b _ (hb' ▸ hra) hrb⟩
    rw [hb2, ha, List.append_assoc]

theorem relayLoop_run {σ : Type} (k : Kernel σ) (fd : Int) (n : Nat) (p : Proc σ) :
    ∃ evs, (relayLoop k fd n p).2.trace = p.trace ++ evs ∧
      LoopRun fd evs (relayLoop k fd n p).1 := by
  induction n generalizing p with
  | zero => exact ⟨[], by simp [relayLoop], LoopRun.outOfFuel⟩
  | succ n ih =>
    obtain ⟨a, ha, hra⟩ := iteration_run k fd p
    unfold relayLoop
    by_cases hb : (iteration k fd p).1 = true
    · simp only [hb, if_true]
      exact ⟨a, ha, LoopRun.stop a (hb ▸ hra)⟩
    · have hb' : (iteration k fd p).1 = false := by simpa using hb
      obtain ⟨r, hr, hrr⟩ := ih (iteration k fd p).2
      simp only [hb', Bool.false_eq_true, if_false]
      refine ⟨a ++ r, ?_, LoopRun.step a r _ (hb' ▸ hra) hrr⟩
      rw [hr, ha, List.append_assoc]

/-! ## Calm and settled traces -/

theorem calm_append {a b : List Event} (ha : Calm a) (hb : Calm b) : Calm (a ++ b) := by
  intro e he
  rcases List.mem_append.1 he with h | h
  · exact ha e h
  · exact hb e h

theorem settled_of_no_terminating (fd : Int) {t : List Event}
    (h : ∀ e ∈ t, e.terminating = false) : Settled fd t := by
  intro pre c post ht hc
  have := h c (by rw [ht]; simp)
  rw [this] at hc
  exact absurd hc (by decide)

theorem settled_of_calm (fd : Int) {t : List Event} (h : Calm t) : Settled fd t :=
  settled_of_no_terminating fd (fun e he => (h e he).1)

theorem settled_append (fd : Int) {a b : List Event} (ha : Calm a) (hb : Settled fd b) :
    Settled fd (a ++ b) := by
  intro pre c post ht hc
  rcases List.append_eq_append_iff.1 ht with ⟨a', h1, h2⟩ | ⟨c', h1, h2⟩
  · exact hb a' c post h2 hc
  · cases c' with
    | nil => exact hb [] c post (by simpa using h2.symm) hc
    | cons x rest' =>
      simp only [List.cons_append, List.cons.injEq] at h2
      have hx := (ha x (by rw [h1]; simp)).1
      rw [← h2.1, hc] at hx
      exact absurd hx (by decide)

theorem halfRun_calm {src dst : Int} {lr lw : String} {evs : List Event}
    (h : HalfRun src dst lr lw evs false) : Calm evs := by
  cases h <;> intro e he <;> simp at he <;> rcases he with rfl | rfl <;>
    simp [Event.terminating, Event.isPerror, EAGAIN]

theorem halfRun_after {src dst : Int} {lr lw : String} {evs : List Event} {br : Bool}
    (h : HalfRun src dst lr lw evs br) (pre : List Event) (c : Event) (post : List Event)
    (ht : evs = pre ++ c :: post) (hc : c.terminating = true) : After src dst lr lw c post := by
  cases h <;>
    rcases pre with _ | ⟨x, _ | ⟨y, _ | ⟨z, pre⟩⟩⟩ <;>
    simp at ht <;>
    (try (obtain ⟨rfl, rfl⟩ := ht)) <;>
    (try (obtain ⟨rfl, rfl, rfl⟩ := ht)) <;>
    (try (obtain ⟨rfl, rfl, rfl, rfl⟩ := ht)) <;>
    simp [Event.terminating, After, EAGAIN] at hc ⊢

theorem halfRun_break_iff {src dst : Int} {lr lw : String} {evs : List Event} {br : Bool}
    (h : HalfRun src dst lr lw evs br) :
    br = true ↔ ∃ e ∈ evs, e.terminating = true := by
  cases h <;> simp [Event.terminating, EAGAIN]
  assumption

theorem iterRun_calm {fd : Int} {evs : List Event} (h : IterRun fd evs false) : Calm evs := by
  cases h with
  | both a b _ h1 h2 => exact calm_append (halfRun_calm h1) (halfRun_calm h2)

theorem iterRun_settled {fd : Int} {evs : List Event} {br : Bool} (h : IterRun fd evs br) :
    Settled fd evs := by
  cases h with
  | stopFirst a h => exact fun pre c post ht hc => Or.inl (halfRun_after h pre c post ht hc)
  | both a b _ h1 h2 =>
    exact settled_append fd (halfRun_calm h1)
      (fun pre c post ht hc => Or.inr (halfRun_after h2 pre c post ht hc))

theorem iterRun_break_iff {fd : Int} {evs : List Event} {br : Bool} (h : IterRun fd evs br) :
    br = true ↔ ∃ e ∈ evs, e.terminating = true := by
  cases h with
  | stopFirst a h => exact halfRun_break_iff h
  | both a b _ h1 h2 =>
    rw [halfRun_break_iff h2]
    constructor
    · rintro ⟨e, he, ht⟩
      exact ⟨e, List.mem_append.2 (Or.inr he), ht⟩
    · rintro ⟨e, he, ht⟩
      rcases List.mem_append.1 he with h | h
      · have := (halfRun_calm h1 e h).1
        rw [this] at ht
        exact absurd ht (by decide)
      · exact ⟨e, h, ht⟩

theorem loopRun_calm {fd : Int} {evs : List Event} {br : Bool} (h : LoopRun fd evs br)
    (hb : br = false) : Calm evs := by
  induction h with
  | outOfFuel => intro e he; simp at he
  | stop a h => exact absurd hb (by decide)
  | step a rest br h1 _ ih => exact calm_append (iterRun_calm h1) (ih hb)

theorem loopRun_settled {fd : Int} {evs : List Event} {br : Bool} (h : LoopRun fd evs br) :
    Settled fd evs := by
  induction h with
  | outOfFuel => exact settled_of_calm fd (fun e he => by simp at he)
  | stop a h => exact iterRun_settled h
  | step a rest br h1 _ ih => exact settled_append fd (iterRun_calm h1) ih

theorem loopRun_break_iff {fd : Int} {evs : List Event} {br : Bool} (h : LoopRun fd evs br) :
    br = true ↔ ∃ e ∈ evs, e.terminating = true := by
  induction h with
  | outOfFuel => simp
  | stop a h => exact iterRun_break_iff h
  | step a rest br h1 _ ih =>
    rw [ih]
    constructor
    · rintro ⟨e, he, ht⟩
      exact ⟨e, List.mem_append.2 (Or.inr he), ht⟩
    · rintro ⟨e, he, ht⟩
      rcases List.mem_append.1 he with h | h
      · have := (iterRun_calm h1 e h).1
        rw [this] at ht
        exact absurd ht (by decide)
      · exact ⟨e, h, ht⟩

/-! ## The startup sequence -/

theorem main_unfold {σ : Type} (k : Kernel σ) (fuel : Nat) (w : σ) (ch0 : Byte) :
    main k fuel w ch0 =
      if (openStage k w ch0).1 = -1 then exit (-1) (perror "open()" (openStage k w ch0).2)
      else if (deviceModeStage k w ch0).1 = -1 then
        exit (-1) (perror "nonblock(fd)" (deviceModeStage k w ch0).2)
      else if (stdinModeStage k w ch0).1 = -1 then
        exit (-1) (perror "nonblock(STDIN_FILENO)" (stdinModeStage k w ch0).2)
      else if (fcntlStage k w ch0).1 = -1 then
        exit (-1) (perror "fcntl()" (fcntlStage k w ch0).2)
      else if (relayLoop k (deviceFd k w ch0) fuel (loopEntry k w ch0)).1 then
        exit 0 (relayLoop k (deviceFd k w ch0) fuel (loopEntry k w ch0)).2
      else (relayLoop k (deviceFd k w ch0) fuel (loopEntry k w ch0)).2 := rfl

theorem openStage_setup {σ : Type} (k : Kernel σ) (w : σ) (ch0 : Byte) :
    ∀ e ∈ (openStage k w ch0).2.trace, e.isSetup = true := by
  intro e he
  simp [openStage, c_open, Proc.init] at he
  subst he; rfl

theorem c_fcntl_setup {σ : Type} (k : Kernel σ) (fd cmd arg : Int) (p : Proc σ)
    (h : ∀ e ∈ p.trace, e.isSetup = true) :
    ∀ e ∈ (c_fcntl k fd cmd arg p).2.trace, e.isSetup = true := by
  intro e he
  simp [c_fcntl] at he
  rcases he with he | rfl
  · exact h e he
  · rfl

theorem nonblock_setup {σ : Type} (k : Kernel σ) (fd : Int) (p : Proc σ)
    (h : ∀ e ∈ p.trace, e.isSetup = true) :
    ∀ e ∈ (nonblock k fd p).2.trace, e.isSetup = true :=
  c_fcntl_setup k _ _ _ _ (c_fcntl_setup k _ _ _ _ h)

theorem deviceModeStage_setup {σ : Type} (k : Kernel σ) (w : σ) (ch0 : Byte) :
    ∀ e ∈ (deviceModeStage k w ch0).2.trace, e.isSetup = true :=
  nonblock_setup k _ _ (openStage_setup k w ch0)

theorem stdinModeStage_setup {σ : Type} (k : Kernel σ) (w : σ) (ch0 : Byte) :
    ∀ e ∈ (stdinModeStage k w ch0).2.trace, e.isSetup = true :=
  nonblock_setup k _ _ (deviceModeStage_setup k w ch0)

theorem fcntlStage_setup {σ : Type} (k : Kernel σ) (w : σ) (ch0 : Byte) :
    ∀ e ∈ (fcntlStage k w ch0).2.trace, e.isSetup = true :=
  c_fcntl_setup k _ _ _ _ (c_fcntl_setup k _ _ _ _ (stdinModeStage_setup k w ch0))

theorem setup_not_transfer {e : Event} (h : e.isSetup = true) :
    e.isTransfer = false ∧ e.terminating = false ∧ e.isPerror = false := by
  cases e <;> simp [Event.isSetup] at h <;>
    simp [Event.isTransfer, Event.isRead, Event.isWrite, Event.terminating, Event.isPerror]

theorem startup_cases {σ : Type} (k : Kernel σ) (w : σ) (ch0 : Byte) :
    openFails k w ch0 ∨ deviceModeFails k w ch0 ∨ stdinModeFails k w ch0 ∨
      fcntlFails k w ch0 ∨ startupOk k w ch0 := by
  unfold openFails deviceModeFails stdinModeFails fcntlFails startupOk
  by_cases h1 : (openStage k w ch0).1 = -1
  · exact Or.inl h1
  by_cases h2 : (deviceModeStage k w ch0).1 = -1
  · exact Or.inr (Or.inl ⟨h1, h2⟩)
  by_cases h3 : (stdinModeStage k w ch0).1 = -1
  · exact Or.inr (Or.inr (Or.inl ⟨h1, h2, h3⟩))
  by_cases h4 : (fcntlStage k w ch0).1 = -1
  · exact Or.inr (Or.inr (Or.inr (Or.inl ⟨h1, h2, h3, h4⟩)))
  · exact Or.inr (Or.inr (Or.inr (Or.inr ⟨h1, h2, h3, h4⟩)))

theorem main_of_openFails {σ : Type} (k : Kernel σ) (fuel : Nat) (w : σ) (ch0 : Byte)
    (h : openFails k w ch0) :
    main k fuel w ch0 = exit (-1) (perror "open()" (openStage k w ch0).2) := by
  rw [main_unfold, if_pos (show (openStage k w ch0).1 = -1 from h)]

theorem main_of_deviceModeFails {σ : Type} (k : Kernel σ) (fuel : Nat) (w : σ) (ch0 : Byte)
    (h : deviceModeFails k w ch0) :
    main k fuel w ch0 = exit (-1) (perror "nonblock(fd)" (deviceModeStage k w ch0).2) := by
  rw [main_unfold, if_neg h.1, if_pos h.2]

theorem main_of_stdinModeFails {σ : Type} (k : Kernel σ) (fuel : Nat) (w : σ) (ch0 : Byte)
    (h : stdinModeFails k w ch0) :
    main k fuel w ch0 =
      exit (-1) (perror "nonblock(STDIN_FILENO)" (stdinModeStage k w ch0).2) := by
  rw [main_unfold, if_neg h.1, if_neg h.2.1, if_pos h.2.2]

theorem main_of_fcntlFails {σ : Type} (k : Kernel σ) (fuel : Nat) (w : σ) (ch0 : Byte)
    (h : fcntlFails k w ch0) :
    main k fuel w ch0 = exit (-1) (perror "fcntl()" (fcntlStage k w ch0).2) := by
  rw [main_unfold, if_neg h.1, if_neg h.2.1, if_neg h.2.2.1, if_pos h.2.2.2]

theorem main_of_startupOk {σ : Type} (k : Kernel σ) (fuel : Nat) (w : σ) (ch0 : Byte)
    (h : startupOk k w ch0) :
    main k fuel w ch0 =
      if (relayLoop k (deviceFd k w ch0) fuel (loopEntry k w ch0)).1 then
        exit 0 (relayLoop k (deviceFd k w ch0) fuel (loopEntry k w ch0)).2
      else (relayLoop k (deviceFd k w ch0) fuel (loopEntry k w ch0)).2 := by
  rw [main_unfold, if_neg h.1, if_neg h.2.1, if_neg h.2.2.1, if_neg h.2.2.2]

theorem transfer_status {σ : Type} (k : Kernel σ) (src dst : Int) (lr lw : String)
    (p : Proc σ) : (transfer k src dst lr lw p).2.status = p.status := by
  unfold transfer c_read c_write perror
  simp only []
  split_ifs <;> rfl

theorem iteration_status {σ : Type} (k : Kernel σ) (fd : Int) (p : Proc σ) :
    (iteration k fd p).2.status = p.status := by
  unfold iteration
  simp only []
  split_ifs
  · rw [stdinToDevice_eq_transfer, transfer_status]
  · rw [deviceToStdout_eq_transfer, transfer_status, stdinToDevice_eq_transfer, transfer_status]

theorem relayLoop_status {σ : Type} (k : Kernel σ) (fd : Int) (n : Nat) (p : Proc σ) :
    (relayLoop k fd n p).2.status = p.status := by
  induction n generalizing p with
  | zero => rfl
  | succ n ih =>
    unfold relayLoop
    by_cases hb : (iteration k fd p).1 = true
    · simp only [hb, if_true]; exact iteration_status k fd p
    · have hb' : (iteration k fd p).1 = false := by simpa using hb
      simp only [hb', Bool.false_eq_true, if_false]
      rw [ih, iteration_status]

theorem loopEntry_status {σ : Type} (k : Kernel σ) (w : σ) (ch0 : Byte) :
    (loopEntry k w ch0).status = none := rfl

theorem newEvents_of_append {σ : Type} {p q : Proc σ} {evs : List Event}
    (h : q.trace = p.trace ++ evs) : newEvents p q = evs := by
  simp [newEvents, h]

theorem relayLoop_stable {σ : Type} (k : Kernel σ) (fd : Int) (n m : Nat) (p : Proc σ)
    (h : (relayLoop k fd n p).1 = true) : relayLoop k fd (n + m) p = relayLoop k fd n p := by
  induction n generalizing p with
  | zero => simp [relayLoop] at h
  | succ n ih =>
    rw [Nat.add_right_comm]
    unfold relayLoop at h ⊢
    by_cases hb : (iteration k fd p).1 = true
    · simp only [hb, if_true]
    · have hb' : (iteration k fd p).1 = false := by simpa using hb
      simp only [hb', Bool.false_eq_true, if_false] at h ⊢
      exact ih _ h

theorem main_trace_of_startupOk {σ : Type} (k : Kernel σ) (fuel : Nat) (w : σ) (ch0 : Byte)
    (h : startupOk k w ch0) :
    (main k fuel w ch0).trace = (relayLoop k (deviceFd k w ch0) fuel (loopEntry k w ch0)).2.trace ∧
    (main k fuel w ch0).status =
      if (relayLoop k (deviceFd k w ch0) fuel (loopEntry k w ch0)).1 then some 0 else none := by
  rw [main_of_startupOk k fuel w ch0 h]
  split_ifs
  · exact ⟨rfl, rfl⟩
  · exact ⟨rfl, by rw [relayLoop_status, loopEntry_status]⟩

theorem loopEntry_calm {σ : Type} (k : Kernel σ) (w : σ) (ch0 : Byte) :
    Calm (loopEntry k w ch0).trace := fun e he =>
  have h := setup_not_transfer (fcntlStage_setup k w ch0 e he)
  ⟨h.2.1, h.2.2⟩

theorem main_run {σ : Type} (k : Kernel σ) (fuel : Nat) (w : σ) (ch0 : Byte)
    (h : startupOk k w ch0) :
    ∃ evs br, (main k fuel w ch0).trace = (loopEntry k w ch0).trace ++ evs ∧
      LoopRun (deviceFd k w ch0) evs br ∧
      (main k fuel w ch0).status = if br then some 0 else none := by
  obtain ⟨evs, h1, h2⟩ := relayLoop_run k (deviceFd k w ch0) fuel (loopEntry k w ch0)
  obtain ⟨h3, h4⟩ := main_trace_of_startupOk k fuel w ch0 h
  exact ⟨evs, _, h3.trans h1, h2, h4⟩

theorem perror_exit_trace {σ : Type} (l : String) (s : Int) (p : Proc σ) :
    (exit s (perror l p)).trace = p.trace ++ [Event.perrorCall l p.errno] ∧
      (exit s (perror l p)).status = some (s % 256) := ⟨rfl, rfl⟩

theorem failed_startup_trace {σ : Type} (k : Kernel σ) (fuel : Nat) (w : σ) (ch0 : Byte)
    (h : ¬ startupOk k w ch0) :
    (main k fuel w ch0).status = some 255 ∧
    ∃ pre l e, (main k fuel w ch0).trace = pre ++ [Event.perrorCall l e] ∧
      ∀ x ∈ pre, x.isSetup = true := by
  rcases startup_cases k w ch0 with h1 | h1 | h1 | h1 | h1
  · rw [main_of_openFails k fuel w ch0 h1]
    exact ⟨rfl, _, _, _, rfl, openStage_setup k w ch0⟩
  · rw [main_of_deviceModeFails k fuel w ch0 h1]
    exact ⟨rfl, _, _, _, rfl, deviceModeStage_setup k w ch0⟩
  · rw [main_of_stdinModeFails k fuel w ch0 h1]
    exact ⟨rfl, _, _, _, rfl, stdinModeStage_setup k w ch0⟩
  · rw [main_of_fcntlFails k fuel w ch0 h1]
    exact ⟨rfl, _, _, _, rfl, fcntlStage_setup k w ch0⟩
  · exact absurd h1 h

theorem not_startupOk_of_failure {σ : Type} (k : Kernel σ) (w : σ) (ch0 : Byte)
    (h : openFails k w ch0 ∨ deviceModeFails k w ch0 ∨ stdinModeFails k w ch0 ∨
      fcntlFails k w ch0) : ¬ startupOk k w ch0 := by
  intro hs
  rcases h with h | h | h | h
  · exact hs.1 h
  · exact hs.2.1 h.2
  · exact hs.2.2.1 h.2.2
  · exact hs.2.2.2 h.2.2.2

theorem main_settled {σ : Type} (k : Kernel σ) (fuel : Nat) (w : σ) (ch0 : Byte) :
    Settled (deviceFd k w ch0) (main k fuel w ch0).trace := by
  by_cases h : startupOk k w ch0
  · obtain ⟨evs, br, h1, h2, _⟩ := main_run k fuel w ch0 h
    rw [h1]
    exact settled_append _ (loopEntry_calm k w ch0) (loopRun_settled h2)
  · obtain ⟨_, pre, l, e, h1, h2⟩ := failed_startup_trace k fuel w ch0 h
    rw [h1]
    apply settled_of_no_terminating
    intro x hx
    rcases List.mem_append.1 hx with hx | hx
    · exact (setup_not_transfer (h2 x hx)).2.1
    · simp at hx
      subst hx
      rfl

theorem main_no_terminating_of_failure {σ : Type} (k : Kernel σ) (fuel : Nat) (w : σ)
    (ch0 : Byte) (h : ¬ startupOk k w ch0) :
    ∀ x ∈ (main k fuel w ch0).trace, x.terminating = false ∧ x.isTransfer = false := by
  obtain ⟨_, pre, l, e, h1, h2⟩ := failed_startup_trace k fuel w ch0 h
  rw [h1]
  intro x hx
  rcases List.mem_append.1 hx with hx | hx
  · exact ⟨(setup_not_transfer (h2 x hx)).2.1, (setup_not_transfer (h2 x hx)).1⟩
  · simp at hx
    subst hx
    exact ⟨rfl, rfl⟩

theorem callOutcome_ret_fail {r : CallOutcome} (h : r.ret = -1) : ∃ e, r = .fail e := by
  cases r with
  | fail e => exact ⟨e, rfl⟩
  | ok v => simp only [CallOutcome.ret] at h; omega

theorem c_open_fail {σ : Type} (k : Kernel σ) (path : String) (flags : Int) (p : Proc σ)
    (h : (c_open k path flags p).1 = -1) :
    ∃ e, (c_open k path flags p).2.trace = p.trace ++ [Event.openCall path flags (.fail e)] ∧
      (c_open k path flags p).2.errno = e := by
  obtain ⟨e, he⟩ := callOutcome_ret_fail (r := (k.sysOpen path flags p.world).1) h
  exact ⟨e, by simp [c_open, he], by simp [c_open, he, CallOutcome.errnoAfter]⟩

theorem c_fcntl_fail {σ : Type} (k : Kernel σ) (fd cmd arg : Int) (p : Proc σ)
    (h : (c_fcntl k fd cmd arg p).1 = -1) :
    ∃ e, (c_fcntl k fd cmd arg p).2.trace = p.trace ++ [Event.fcntlCall fd cmd arg (.fail e)] ∧
      (c_fcntl k fd cmd arg p).2.errno = e := by
  obtain ⟨e, he⟩ := callOutcome_ret_fail (r := (k.sysFcntl fd cmd arg p.world).1) h
  exact ⟨e, by simp [c_fcntl, he], by simp [c_fcntl, he, CallOutcome.errnoAfter]⟩

theorem terminating_iff (c : Event) :
    c.terminating = true ↔
      (∃ f e, c = .readCall f (.fail e) ∧ e ≠ EAGAIN) ∨
      (∃ f b e, c = .writeCall f b (.fail e)) ∨
      (∃ f b, c = .writeCall f b .zero) := by
  cases c with
  | readCall f r =>
    cases r with
    | fail e =>
      simp only [Event.terminating, decide_eq_true_eq]
      constructor
      · intro h; exact Or.inl ⟨f, e, rfl, h⟩
      · rintro (⟨_, _, h1, h2⟩ | ⟨_, _, _, h1⟩ | ⟨_, _, h1⟩)
        · cases h1; exact h2
        · cases h1
        · cases h1
    | _ => simp [Event.terminating]
  | writeCall f b r => cases r <;> simp [Event.terminating]
  | _ => simp [Event.terminating]

theorem halfRun_streams {src dst : Int} {lr lw : String} {evs : List Event} {br : Bool}
    (h : HalfRun src dst lr lw evs br) :
    ∀ e ∈ evs, (∀ f r, e = .readCall f r → f = src) ∧ (∀ f b r, e = .writeCall f b r → f = dst) := by
  cases h <;> intro e he <;> simp at he <;> rcases he with rfl | rfl | rfl <;> simp

theorem iterRun_streams {fd : Int} {evs : List Event} {br : Bool} (h : IterRun fd evs br) :
    ∀ e ∈ evs, (∀ f r, e = .readCall f r → f = STDIN_FILENO ∨ f = fd) ∧
      (∀ f b r, e = .writeCall f b r → f = fd ∨ f = STDOUT_FILENO) := by
  cases h with
  | stopFirst a h =>
    intro e he
    exact ⟨fun f r hf => Or.inl ((halfRun_streams h e he).1 f r hf),
      fun f b r hf => Or.inl ((halfRun_streams h e he).2 f b r hf)⟩
  | both a b _ h1 h2 =>
    intro e he
    rcases List.mem_append.1 he with he | he
    · exact ⟨fun f r hf => Or.inl ((halfRun_streams h1 e he).1 f r hf),
        fun f b r hf => Or.inl ((halfRun_streams h1 e he).2 f b r hf)⟩
    · exact ⟨fun f r hf => Or.inr ((halfRun_streams h2 e he).1 f r hf),
        fun f b r hf => Or.inr ((halfRun_streams h2 e he).2 f b r hf)⟩

theorem transfer_nothing {σ : Type} (k : Kernel σ) (src dst : Int) (lr lw : String)
    (p : Proc σ) (r : ReadOutcome) (hr : (k.sysRead src p.world).1 = r)
    (hn : r.nothing = true) :
    transfer k src dst lr lw p = (false, (c_read k src p).2) ∧
    (c_read k src p).2.trace = p.trace ++ [.readCall src r] ∧
    (c_read k src p).2.world = (k.sysRead src p.world).2 := by
  unfold transfer c_read
  cases r with
  | fail e =>
    have he : e = EAGAIN := by simpa [ReadOutcome.nothing] using hn
    simp [hr, ReadOutcome.ret, ReadOutcome.errnoAfter, he]
  | eof => simp [hr, ReadOutcome.ret]
  | data b => simp [ReadOutcome.nothing] at hn

theorem iteration_nothing {σ : Type} (k : Kernel σ) (fd : Int) (p : Proc σ)
    (r1 r2 : ReadOutcome) (h1 : (k.sysRead STDIN_FILENO p.world).1 = r1)
    (h2 : (k.sysRead fd (k.sysRead STDIN_FILENO p.world).2).1 = r2)
    (n1 : r1.nothing = true) (n2 : r2.nothing = true) :
    (iteration k fd p).1 = false ∧
    (iteration k fd p).2.trace = p.trace ++ [.readCall STDIN_FILENO r1, .readCall fd r2] := by
  obtain ⟨ha, hb, hc⟩ :=
    transfer_nothing k STDIN_FILENO fd "read(STDIN_FILENO)" "write(fd)" p r1 h1 n1
  rw [← stdinToDevice_eq_transfer] at ha
  obtain ⟨hd, he, _⟩ := transfer_nothing k fd STDOUT_FILENO "read(fd)" "write(STDOUT_FILENO)"
    (c_read k STDIN_FILENO p).2 r2 (by rw [hc]; exact h2) n2
  rw [← deviceToStdout_eq_transfer] at hd
  unfold iteration
  simp only [ha, Bool.false_eq_true, if_false, hd, he, hb, List.append_assoc, List.singleton_append,
    and_self]

theorem relayLoop_nothing {σ : Type} (k : Kernel σ) (fd : Int) (r1 r2 : ReadOutcome)
    (n1 : r1.nothing = true) (n2 : r2.nothing = true) (n : Nat) (p : Proc σ)
    (h : readsGive k fd r1 r2 n p = true) :
    (relayLoop k fd n p).1 = false ∧
    ∃ evs, (relayLoop k fd n p).2.trace = p.trace ++ evs ∧ evs.length = 2 * n ∧
      ∀ e ∈ evs, e = .readCall STDIN_FILENO r1 ∨ e = .readCall fd r2 := by
  induction n generalizing p with
  | zero => exact ⟨rfl, [], by simp [relayLoop], rfl, by simp⟩
  | succ n ih =>
    simp only [readsGive, Bool.and_eq_true, decide_eq_true_eq] at h
    obtain ⟨⟨h1, h2⟩, h3⟩ := h
    obtain ⟨hb, ht⟩ := iteration_nothing k fd p r1 r2 h1 h2 n1 n2
    obtain ⟨hb2, evs, ht2, hl, hall⟩ := ih (iteration k fd p).2 h3
    unfold relayLoop
    simp only [hb, Bool.false_eq_true, if_false]
    refine ⟨hb2, [.readCall STDIN_FILENO r1, .readCall fd r2] ++ evs, ?_, ?_, ?_⟩
    · rw [ht2, ht, List.append_assoc]
    · simp [hl]; omega
    · intro e he
      simp only [List.cons_append, List.nil_append, List.mem_cons] at he
      rcases he with rfl | rfl | he
      · exact Or.inl rfl
      · exact Or.inr rfl
      · exact hall e he

theorem writtenTo_append (f : Int) (a b : List Event) :
    writtenTo f (a ++ b) = writtenTo f a ++ writtenTo f b := by
  simp [writtenTo, List.filterMap_append]

theorem writtenTo_of_no_write (f : Int) (evs : List Event)
    (h : ∀ e ∈ evs, e.isWrite = false) : writtenTo f evs = [] := by
  induction evs with
  | nil => rfl
  | cons x t ih =>
    have hx := h x (by simp)
    have ht := ih (fun e he => h e (by simp [he]))
    cases x <;> simp_all [writtenTo, Event.isWrite]

theorem fcntl_fail_then_perror {σ : Type} (k : Kernel σ) (fd cmd arg : Int) (p : Proc σ)
    (l : String) (s : Int) (h : (c_fcntl k fd cmd arg p).1 = -1) :
    ∃ e, (exit s (perror l (c_fcntl k fd cmd arg p).2)).trace =
      p.trace ++ [.fcntlCall fd cmd arg (.fail e), .perrorCall l e] := by
  obtain ⟨e, h1, h2⟩ := c_fcntl_fail k fd cmd arg p h
  refine ⟨e, ?_⟩
  rw [(perror_exit_trace _ _ _).1, h1, h2, List.append_assoc]
  rfl

theorem halfRun_write {src dst : Int} {lr lw : String} {evs : List Event} {br : Bool}
    (h : HalfRun src dst lr lw evs br) (pre : List Event) (f : Int) (b : Byte)
    (o : WriteOutcome) (post : List Event) (ht : evs = pre ++ .writeCall f b o :: post) :
    pre = [.readCall src (.data b)] ∧ f = dst := by
  cases h <;>
    rcases pre with _ | ⟨x, _ | ⟨y, _ | ⟨z, pre⟩⟩⟩ <;>
    simp at ht <;>
    (try (obtain ⟨rfl, ⟨rfl, rfl, -⟩, -⟩ := ht)) <;>
    simp

theorem halfRun_reads {src dst : Int} {lr lw : String} {evs : List Event} {br : Bool}
    (h : HalfRun src dst lr lw evs br) :
    ∃ r, evs.filter Event.isRead = [.readCall src r] ∧ evs.head? = some (.readCall src r) := by
  cases h <;> exact ⟨_, by simp [List.filter, Event.isRead], rfl⟩

/-! ## The simulated terminal -/

theorem writeCalls_append (f : Int) (a b : List Event) :
    writeCalls f (a ++ b) = writeCalls f a ++ writeCalls f b := by
  simp [writeCalls, List.filterMap_append]

theorem wire_startupOk (w : Wire) (ch0 : Byte) : startupOk wireKernel w ch0 := by
  refine ⟨?_, ?_, ?_, ?_⟩
  · show Int.ofNat 3 ≠ -1
    decide
  all_goals
    show Int.ofNat 0 ≠ -1
    decide

theorem wire_deviceFd (w : Wire) (ch0 : Byte) : deviceFd wireKernel w ch0 = DEVICE_FD := rfl

theorem wire_loopEntry (w : Wire) (ch0 : Byte) :
    (loopEntry wireKernel w ch0).world = w ∧
    (∀ f, writtenTo f (loopEntry wireKernel w ch0).trace = []) ∧
    (∀ f, writeCalls f (loopEntry wireKernel w ch0).trace = []) :=
  ⟨rfl, fun _ => rfl, fun _ => rfl⟩

theorem wire_iteration_echo (p : Proc Wire) (b : Byte) (t s o : List Byte)
    (h : p.world = { stdin := b :: t, line := [], sent := s, stdout := o, echo := true }) :
    (iteration wireKernel DEVICE_FD p).1 = false ∧
    (iteration wireKernel DEVICE_FD p).2.world =
      { stdin := t, line := [], sent := s ++ [b], stdout := o ++ [b], echo := true } ∧
    (iteration wireKernel DEVICE_FD p).2.trace = p.trace ++
      [.readCall STDIN_FILENO (.data b), .writeCall DEVICE_FD b .done,
       .readCall DEVICE_FD (.data b), .writeCall STDOUT_FILENO b .done] := by
  simp [iteration, stdinToDevice, deviceToStdout, c_read, c_write, wireKernel, h,
    ReadOutcome.ret, ReadOutcome.store, ReadOutcome.errnoAfter, WriteOutcome.ret,
    WriteOutcome.errnoAfter, STDIN_FILENO, STDOUT_FILENO, DEVICE_FD]

theorem wire_iteration_idle (p : Proc Wire) (s o : List Byte) (e : Bool)
    (h : p.world = { stdin := [], line := [], sent := s, stdout := o, echo := e }) :
    (iteration wireKernel DEVICE_FD p).1 = false ∧
    (iteration wireKernel DEVICE_FD p).2.world = p.world ∧
    (iteration wireKernel DEVICE_FD p).2.trace = p.trace ++
      [.readCall STDIN_FILENO (.fail EAGAIN), .readCall DEVICE_FD (.fail EAGAIN)] := by
  simp [iteration, stdinToDevice, deviceToStdout, c_read, c_write, wireKernel, h,
    ReadOutcome.ret, ReadOutcome.store, ReadOutcome.errnoAfter, WriteOutcome.ret,
    WriteOutcome.errnoAfter, STDIN_FILENO, STDOUT_FILENO, DEVICE_FD]

theorem wire_iteration_device (p : Proc Wire) (c : Byte) (u s o : List Byte) (e : Bool)
    (h : p.world = { stdin := [], line := c :: u, sent := s, stdout := o, echo := e }) :
    (iteration wireKernel DEVICE_FD p).1 = false ∧
    (iteration wireKernel DEVICE_FD p).2.world =
      { stdin := [], line := u, sent := s, stdout := o ++ [c], echo := e } ∧
    (iteration wireKernel DEVICE_FD p).2.trace = p.trace ++
      [.readCall STDIN_FILENO (.fail EAGAIN), .readCall DEVICE_FD (.data c),
       .writeCall STDOUT_FILENO c .done] := by
  simp [iteration, stdinToDevice, deviceToStdout, c_read, c_write, wireKernel, h,
    ReadOutcome.ret, ReadOutcome.store, ReadOutcome.errnoAfter, WriteOutcome.ret,
    WriteOutcome.errnoAfter, STDIN_FILENO, STDOUT_FILENO, DEVICE_FD]

theorem wire_iteration_stdin (p : Proc Wire) (b : Byte) (t s o : List Byte)
    (h : p.world = { stdin := b :: t, line := [], sent := s, stdout := o, echo := false }) :
    (iteration wireKernel DEVICE_FD p).1 = false ∧
    (iteration wireKernel DEVICE_FD p).2.world =
      { stdin := t, line := [], sent := s ++ [b], stdout := o, echo := false } ∧
    (iteration wireKernel DEVICE_FD p).2.trace = p.trace ++
      [.readCall STDIN_FILENO (.data b), .writeCall DEVICE_FD b .done,
       .readCall DEVICE_FD (.fail EAGAIN)] := by
  simp [iteration, stdinToDevice, deviceToStdout, c_read, c_write, wireKernel, h,
    ReadOutcome.ret, ReadOutcome.store, ReadOutcome.errnoAfter, WriteOutcome.ret,
    WriteOutcome.errnoAfter, STDIN_FILENO, STDOUT_FILENO, DEVICE_FD]

theorem relayLoop_succ_of_continue {σ : Type} (k : Kernel σ) (fd : Int) (n : Nat) (p : Proc σ)
    (h : (iteration k fd p).1 = false) :
    relayLoop k fd (n + 1) p = relayLoop k fd n (iteration k fd p).2 := by
  show (if (iteration k fd p).1 then _ else _) = _
  rw [h]
  rfl

theorem wire_loop_echo (n : Nat) (bs s o : List Byte) (p : Proc Wire)
    (h : p.world = { stdin := bs, line := [], sent := s, stdout := o, echo := true }) :
    (relayLoop wireKernel DEVICE_FD n p).1 = false ∧
    (relayLoop wireKernel DEVICE_FD n p).2.world =
      { stdin := bs.drop n, line := [], sent := s ++ bs.take n, stdout := o ++ bs.take n,
        echo := true } ∧
    writtenTo STDOUT_FILENO (relayLoop wireKernel DEVICE_FD n p).2.trace =
      writtenTo STDOUT_FILENO p.trace ++ bs.take n ∧
    writeCalls STDOUT_FILENO (relayLoop wireKernel DEVICE_FD n p).2.trace =
      writeCalls STDOUT_FILENO p.trace ++ (bs.take n).map (fun b => (b, WriteOutcome.done)) := by
  induction n generalizing bs s o p with
  | zero => simp [relayLoop, h]
  | succ n ih =>
    cases bs with
    | nil =>
      obtain ⟨h1, h2, h3⟩ := wire_iteration_idle p s o true h
      obtain ⟨i1, i2, i3, i4⟩ := ih [] s o (iteration wireKernel DEVICE_FD p).2 (h2.trans h)
      rw [relayLoop_succ_of_continue _ _ _ _ h1]
      refine ⟨i1, by simpa using i2, ?_, ?_⟩
      · rw [i3, h3]
        simp [writtenTo, List.filterMap_append]
      · rw [i4, h3]
        simp [writeCalls, List.filterMap_append]
    | cons b t =>
      obtain ⟨h1, h2, h3⟩ := wire_iteration_echo p b t s o h
      obtain ⟨i1, i2, i3, i4⟩ := ih t (s ++ [b]) (o ++ [b]) (iteration wireKernel DEVICE_FD p).2 h2
      rw [relayLoop_succ_of_continue _ _ _ _ h1]
      refine ⟨i1, by simpa using i2, ?_, ?_⟩
      · rw [i3, h3]
        simp [writtenTo, List.filterMap_append, STDOUT_FILENO, DEVICE_FD]
      · rw [i4, h3]
        simp [writeCalls, List.filterMap_append, STDOUT_FILENO, DEVICE_FD]

theorem wire_loop_device (n : Nat) (ds s o : List Byte) (e : Bool) (p : Proc Wire)
    (h : p.world = { stdin := [], line := ds, sent := s, stdout := o, echo := e }) :
    (relayLoop wireKernel DEVICE_FD n p).1 = false ∧
    (relayLoop wireKernel DEVICE_FD n p).2.world =
      { stdin := [], line := ds.drop n, sent := s, stdout := o ++ ds.take n, echo := e } ∧
    writeCalls STDOUT_FILENO (relayLoop wireKernel DEVICE_FD n p).2.trace =
      writeCalls STDOUT_FILENO p.trace ++ (ds.take n).map (fun b => (b, WriteOutcome.done)) ∧
    writeCalls DEVICE_FD (relayLoop wireKernel DEVICE_FD n p).2.trace =
      writeCalls DEVICE_FD p.trace := by
  induction n generalizing ds o p with
  | zero => simp [relayLoop, h]
  | succ n ih =>
    cases ds with
    | nil =>
      obtain ⟨h1, h2, h3⟩ := wire_iteration_idle p s o e h
      obtain ⟨i1, i2, i3, i4⟩ := ih [] o (iteration wireKernel DEVICE_FD p).2 (h2.trans h)
      rw [relayLoop_succ_of_continue _ _ _ _ h1]
      refine ⟨i1, by simpa using i2, ?_, ?_⟩
      · rw [i3, h3]
        simp [writeCalls, List.filterMap_append]
      · rw [i4, h3]
        simp [writeCalls, List.filterMap_append]
    | cons c u =>
      obtain ⟨h1, h2, h3⟩ := wire_iteration_device p c u s o e h
      obtain ⟨i1, i2, i3, i4⟩ := ih u (o ++ [c]) (iteration wireKernel DEVICE_FD p).2 h2
      rw [relayLoop_succ_of_continue _ _ _ _ h1]
      refine ⟨i1, by simpa using i2, ?_, ?_⟩
      · rw [i3, h3]
        simp [writeCalls, List.filterMap_append, STDOUT_FILENO, DEVICE_FD]
      · rw [i4, h3]
        simp [writeCalls, List.filterMap_append, STDOUT_FILENO, DEVICE_FD]

theorem wire_loop_stdin (n : Nat) (bs s o : List Byte) (p : Proc Wire)
    (h : p.world = { stdin := bs, line := [], sent := s, stdout := o, echo := false }) :
    (relayLoop wireKernel DEVICE_FD n p).1 = false ∧
    (relayLoop wireKernel DEVICE_FD n p).2.world =
      { stdin := bs.drop n, line := [], sent := s ++ bs.take n, stdout := o, echo := false } ∧
    writeCalls DEVICE_FD (relayLoop wireKernel DEVICE_FD n p).2.trace =
      writeCalls DEVICE_FD p.trace ++ (bs.take n).map (fun b => (b, WriteOutcome.done)) ∧
    writeCalls STDOUT_FILENO (relayLoop wireKernel DEVICE_FD n p).2.trace =
      writeCalls STDOUT_FILENO p.trace := by
  induction n generalizing bs s p with
  | zero => simp [relayLoop, h]
  | succ n ih =>
    cases bs with
    | nil =>
      obtain ⟨h1, h2, h3⟩ := wire_iteration_idle p s o false h
      obtain ⟨i1, i2, i3, i4⟩ := ih [] s (iteration wireKernel DEVICE_FD p).2 (h2.trans h)
      rw [relayLoop_succ_of_continue _ _ _ _ h1]
      refine ⟨i1, by simpa using i2, ?_, ?_⟩
      · rw [i3, h3]
        simp [writeCalls, List.filterMap_append]
      · rw [i4, h3]
        simp [writeCalls, List.filterMap_append]
    | cons b t =>
      obtain ⟨h1, h2, h3⟩ := wire_iteration_stdin p b t s o h
      obtain ⟨i1, i2, i3, i4⟩ := ih t (s ++ [b]) (iteration wireKernel DEVICE_FD p).2 h2
      rw [relayLoop_succ_of_continue _ _ _ _ h1]
      refine ⟨i1, by simpa using i2, ?_, ?_⟩
      · rw [i3, h3]
        simp [writeCalls, List.filterMap_append, STDOUT_FILENO, DEVICE_FD]
      · rw [i4, h3]
        simp [writeCalls, List.filterMap_append, STDOUT_FILENO, DEVICE_FD]

theorem wire_main (n : Nat) (w : Wire) (ch0 : Byte)
    (h : (relayLoop wireKernel DEVICE_FD n (loopEntry wireKernel w ch0)).1 = false) :
    main wireKernel n w ch0 = (relayLoop wireKernel DEVICE_FD n (loopEntry wireKernel w ch0)).2 := by
  rw [main_of_startupOk wireKernel n w ch0 (wire_startupOk w ch0), wire_deviceFd, h]
  rfl

/-! ## The claims -/

/-- Claim C3: when opening the device fails, or putting the device into non-blocking
mode fails, or putting standard input into non-blocking mode fails, `main`
exits with status 255 (non-zero) without entering the relay loop: the run makes
no `read` and no `write` at all, and is the same whatever the fuel. -/
theorem startup_failure_is_fatal {σ : Type} (k : Kernel σ) (fuel : Nat) (w : σ) (ch0 : Byte)
    (h : openFails k w ch0 ∨ deviceModeFails k w ch0 ∨ stdinModeFails k w ch0) :
    (main k fuel w ch0).status = some 255 ∧
    (∀ e ∈ (main k fuel w ch0).trace, e.isTransfer = false) ∧
    main k fuel w ch0 = main k 0 w ch0 := by
  have hn : ¬ startupOk k w ch0 := by
    apply not_startupOk_of_failure
    rcases h with h | h | h
    · exact Or.inl h
    · exact Or.inr (Or.inl h)
    · exact Or.inr (Or.inr (Or.inl h))
  refine ⟨(failed_startup_trace k fuel w ch0 hn).1,
    fun e he => (main_no_terminating_of_failure k fuel w ch0 hn e he).2, ?_⟩
  rcases h with h | h | h
  · rw [main_of_openFails k fuel w ch0 h, main_of_openFails k 0 w ch0 h]
  · rw [main_of_deviceModeFails k fuel w ch0 h, main_of_deviceModeFails k 0 w ch0 h]
  · rw [main_of_stdinModeFails k fuel w ch0 h, main_of_stdinModeFails k 0 w ch0 h]

/-- Witness of claim C3: a device path that cannot be opened. -/
theorem startup_failure_is_fatal_witness :
    openFails scriptKernel missingDevice 0 ∧
    (main scriptKernel 7 missingDevice 0).status = some 255 :=
  ⟨by decide, (startup_failure_is_fatal scriptKernel 7 missingDevice 0 (Or.inl (by decide))).1⟩

/-- Claim C4: `main` exits with status 0 exactly when a terminating call (a read
error other than `EAGAIN`, a write error, a write of zero bytes, on either
direction) has occurred in the relay loop, whichever it was; in particular it
exits with 0 whenever the loop is entered and left.  On the three
startup-failure paths it exits with status 255, which is not zero. -/
theorem exit_status {σ : Type} (k : Kernel σ) (fuel : Nat) (w : σ) (ch0 : Byte) :
    ((main k fuel w ch0).status = some 0 ↔
      ∃ e ∈ (main k fuel w ch0).trace, e.terminating = true) ∧
    (startupOk k w ch0 →
      (relayLoop k (deviceFd k w ch0) fuel (loopEntry k w ch0)).1 = true →
      (main k fuel w ch0).status = some 0) ∧
    (openFails k w ch0 ∨ deviceModeFails k w ch0 ∨ stdinModeFails k w ch0 →
      (main k fuel w ch0).status = some 255 ∧ (main k fuel w ch0).status ≠ some 0) := by
  refine ⟨?_, ?_, ?_⟩
  · by_cases hs : startupOk k w ch0
    · obtain ⟨evs, br, h1, h2, h3⟩ := main_run k fuel w ch0 hs
      rw [h3, h1]
      constructor
      · intro hb
        have hbr : br = true := by cases br <;> simp_all
        obtain ⟨e, he, ht⟩ := (loopRun_break_iff h2).1 hbr
        exact ⟨e, List.mem_append.2 (Or.inr he), ht⟩
      · rintro ⟨e, he, ht⟩
        rcases List.mem_append.1 he with he | he
        · have := (loopEntry_calm k w ch0 e he).1
          rw [this] at ht
          exact absurd ht (by decide)
        · rw [(loopRun_break_iff h2).2 ⟨e, he, ht⟩]
          rfl
    · constructor
      · intro h0
        rw [(failed_startup_trace k fuel w ch0 hs).1] at h0
        exact absurd h0 (by decide)
      · rintro ⟨e, he, ht⟩
        have := (main_no_terminating_of_failure k fuel w ch0 hs e he).1
        rw [this] at ht
        exact absurd ht (by decide)
  · intro hs hb
    rw [(main_trace_of_startupOk k fuel w ch0 hs).2, hb]
    rfl
  · intro h
    have hn : ¬ startupOk k w ch0 := by
      apply not_startupOk_of_failure
      rcases h with h | h | h
      · exact Or.inl h
      · exact Or.inr (Or.inl h)
      · exact Or.inr (Or.inr (Or.inl h))
    have h255 := (failed_startup_trace k fuel w ch0 hn).1
    exact ⟨h255, by rw [h255]; decide⟩

/-- Witness of claim C4: a run that leaves the loop on a write of zero bytes exits
with 0, a run whose device cannot be opened exits with 255. -/
theorem exit_status_witness :
    (main scriptKernel 2 zeroWrite 0).status = some 0 ∧
    (main scriptKernel 2 missingDevice 0).status = some 255 :=
  ⟨(exit_status scriptKernel 2 zeroWrite 0).2.1 (by decide) (by decide),
   ((exit_status scriptKernel 2 missingDevice 0).2.2 (Or.inl (by decide))).1⟩

/-- Claim C2: an iteration of the relay loop leaves the loop if and only if, among
the calls it made, (a) a read on standard input or on the device failed with an
errno other than `EAGAIN`, or (b) a write to the device or to standard output
failed, or (c) a write to the device or to standard output transferred zero
bytes; otherwise the loop goes on with the next iteration. -/
theorem loop_exit_conditions {σ : Type} (k : Kernel σ) (fd : Int) (p : Proc σ) :
    ((iteration k fd p).1 = true ↔
      (∃ e, e ≠ EAGAIN ∧
        (.readCall STDIN_FILENO (.fail e) ∈ newEvents p (iteration k fd p).2 ∨
         .readCall fd (.fail e) ∈ newEvents p (iteration k fd p).2)) ∨
      (∃ b e,
        .writeCall fd b (.fail e) ∈ newEvents p (iteration k fd p).2 ∨
        .writeCall STDOUT_FILENO b (.fail e) ∈ newEvents p (iteration k fd p).2) ∨
      (∃ b,
        .writeCall fd b .zero ∈ newEvents p (iteration k fd p).2 ∨
        .writeCall STDOUT_FILENO b .zero ∈ newEvents p (iteration k fd p).2)) ∧
    (∀ n, relayLoop k fd (n + 1) p =
      if (iteration k fd p).1 then iteration k fd p
      else relayLoop k fd n (iteration k fd p).2) := by
  refine ⟨?_, fun n => rfl⟩
  obtain ⟨evs, h1, h2⟩ := iteration_run k fd p
  rw [newEvents_of_append h1, iterRun_break_iff h2]
  constructor
  · rintro ⟨c, hc, ht⟩
    have hs := iterRun_streams h2 c hc
    rcases (terminating_iff c).1 ht with ⟨f, e, rfl, he⟩ | ⟨f, b, e, rfl⟩ | ⟨f, b, rfl⟩
    · refine Or.inl ⟨e, he, ?_⟩
      rcases hs.1 f _ rfl with rfl | rfl
      · exact Or.inl hc
      · exact Or.inr hc
    · refine Or.inr (Or.inl ⟨b, e, ?_⟩)
      rcases hs.2 f b _ rfl with rfl | rfl
      · exact Or.inl hc
      · exact Or.inr hc
    · refine Or.inr (Or.inr ⟨b, ?_⟩)
      rcases hs.2 f b _ rfl with rfl | rfl
      · exact Or.inl hc
      · exact Or.inr hc
  · rintro (⟨e, he, h | h⟩ | ⟨b, e, h | h⟩ | ⟨b, h | h⟩)
    · exact ⟨_, h, by simp [Event.terminating, he]⟩
    · exact ⟨_, h, by simp [Event.terminating, he]⟩
    · exact ⟨_, h, rfl⟩
    · exact ⟨_, h, rfl⟩
    · exact ⟨_, h, rfl⟩
    · exact ⟨_, h, rfl⟩

/-- Claim C8: in any run of `main`, the calls that follow a terminating call are not
reads or writes (at most the diagnostic follows), and once the process has
exited more fuel changes nothing.  In particular an iteration whose read on
standard input fails makes only that read and the diagnostic, and an iteration
whose write to the device transfers nothing makes only the read on standard
input and that write: the device is not read, standard output is not written. -/
theorem termination_is_immediate {σ : Type} (k : Kernel σ) (fuel : Nat) (w : σ) (ch0 : Byte) :
    (∀ pre c post, (main k fuel w ch0).trace = pre ++ c :: post → c.terminating = true →
      ∀ e ∈ post, e.isTransfer = false) ∧
    ((main k fuel w ch0).status ≠ none → ∀ m, main k (fuel + m) w ch0 = main k fuel w ch0) ∧
    (∀ fd (p : Proc σ) e, (k.sysRead STDIN_FILENO p.world).1 = .fail e → e ≠ EAGAIN →
      (iteration k fd p).1 = true ∧
      newEvents p (iteration k fd p).2 =
        [.readCall STDIN_FILENO (.fail e), .perrorCall "read(STDIN_FILENO)" e]) ∧
    (∀ fd (p : Proc σ) b, (k.sysRead STDIN_FILENO p.world).1 = .data b →
      (k.sysWrite fd b (k.sysRead STDIN_FILENO p.world).2).1 = .zero →
      (iteration k fd p).1 = true ∧
      newEvents p (iteration k fd p).2 =
        [.readCall STDIN_FILENO (.data b), .writeCall fd b .zero]) := by
  refine ⟨?_, ?_, ?_, ?_⟩
  · intro pre c post ht hc e he
    rcases main_settled k fuel w ch0 pre c post ht hc with h | h <;>
      rcases h with ⟨_, _, rfl⟩ | ⟨_, _, _, rfl⟩ | ⟨_, _, rfl⟩ <;>
      simp at he <;> subst he <;> rfl
  · intro hs m
    by_cases hok : startupOk k w ch0
    · have hb : (relayLoop k (deviceFd k w ch0) fuel (loopEntry k w ch0)).1 = true := by
        by_contra hb
        have hb' : (relayLoop k (deviceFd k w ch0) fuel (loopEntry k w ch0)).1 = false := by
          simpa using hb
        apply hs
        rw [(main_trace_of_startupOk k fuel w ch0 hok).2, hb']
        rfl
      rw [main_of_startupOk k _ w ch0 hok, main_of_startupOk k _ w ch0 hok,
        relayLoop_stable k _ fuel m _ hb]
    · rcases startup_cases k w ch0 with h | h | h | h | h
      · rw [main_of_openFails k _ w ch0 h, main_of_openFails k _ w ch0 h]
      · rw [main_of_deviceModeFails k _ w ch0 h, main_of_deviceModeFails k _ w ch0 h]
      · rw [main_of_stdinModeFails k _ w ch0 h, main_of_stdinModeFails k _ w ch0 h]
      · rw [main_of_fcntlFails k _ w ch0 h, main_of_fcntlFails k _ w ch0 h]
      · exact absurd h hok
  · intro fd p e hr he
    simp [iteration, stdinToDevice, c_read, perror, newEvents, hr, ReadOutcome.ret,
      ReadOutcome.errnoAfter, he]
  · intro fd p b hr hw
    simp [iteration, stdinToDevice, c_read, c_write, perror, newEvents, hr, hw,
      ReadOutcome.ret, ReadOutcome.errnoAfter, ReadOutcome.store, WriteOutcome.ret]

/-- Witness of claim C8: the read on standard input fails with `EBADF`; the run ends
with that read and its diagnostic. -/
theorem termination_is_immediate_witness :
    (main scriptKernel 3 stdinBroken 0).trace.drop 7 =
      [.readCall STDIN_FILENO (.fail EBADF), .perrorCall "read(STDIN_FILENO)" EBADF] ∧
    ∀ e ∈ [Event.perrorCall "read(STDIN_FILENO)" EBADF], e.isTransfer = false :=
  ⟨by decide, (termination_is_immediate scriptKernel 3 stdinBroken 0).1
    ((main scriptKernel 3 stdinBroken 0).trace.take 7) (.readCall STDIN_FILENO (.fail EBADF))
    [.perrorCall "read(STDIN_FILENO)" EBADF] (by decide) (by decide)⟩

/-- Claim C5, as stated, fails: after a successful startup the byte 65 is read from
standard input and the write to the device transfers zero bytes; the loop stops
on that write, the process exits (with status 0), and the whole run contains no
`perror` call. -/
theorem zero_write_has_no_diagnostic :
    (main scriptKernel 1 zeroWrite 0).status = some 0 ∧
    (main scriptKernel 1 zeroWrite 0).trace =
      [.openCall "/dev/ttyUSB0" 2 (.ok 3),
       .fcntlCall 3 3 0 (.ok 0), .fcntlCall 3 4 2048 (.ok 0),
       .fcntlCall 0 3 0 (.ok 0), .fcntlCall 0 4 2048 (.ok 0),
       .fcntlCall 3 3 0 (.ok 0), .fcntlCall 3 4 2048 (.ok 0),
       .readCall 0 (.data 65), .writeCall 3 65 .zero] ∧
    (Event.writeCall 3 65 .zero).terminating = true ∧
    (main scriptKernel 1 zeroWrite 0).trace.any Event.isPerror = false := by
  decide

/-- Claim C5, amended: every startup failure, every read that fails with an errno
other than `EAGAIN` and every write that fails is followed at once by a
`perror` that names the failing operation and reports its errno, and by nothing
else; a write of zero bytes stops the loop with no diagnostic. -/
theorem diagnostic_on_errors {σ : Type} (k : Kernel σ) (fuel : Nat) (w : σ) (ch0 : Byte) :
    (openFails k w ch0 → ∃ e, (main k fuel w ch0).trace =
      [.openCall "/dev/ttyUSB0" O_RDWR (.fail e), .perrorCall "open()" e]) ∧
    (deviceModeFails k w ch0 → ∃ pre arg e, (main k fuel w ch0).trace =
      pre ++ [.fcntlCall (deviceFd k w ch0) F_SETFL arg (.fail e),
        .perrorCall "nonblock(fd)" e]) ∧
    (stdinModeFails k w ch0 → ∃ pre arg e, (main k fuel w ch0).trace =
      pre ++ [.fcntlCall STDIN_FILENO F_SETFL arg (.fail e),
        .perrorCall "nonblock(STDIN_FILENO)" e]) ∧
    (fcntlFails k w ch0 → ∃ pre arg e, (main k fuel w ch0).trace =
      pre ++ [.fcntlCall (deviceFd k w ch0) F_SETFL arg (.fail e), .perrorCall "fcntl()" e]) ∧
    (∀ pre f e post, (main k fuel w ch0).trace = pre ++ .readCall f (.fail e) :: post →
      e ≠ EAGAIN →
      (f = STDIN_FILENO ∧ post = [.perrorCall "read(STDIN_FILENO)" e]) ∨
      (f = deviceFd k w ch0 ∧ post = [.perrorCall "read(fd)" e])) ∧
    (∀ pre f b e post, (main k fuel w ch0).trace = pre ++ .writeCall f b (.fail e) :: post →
      (f = deviceFd k w ch0 ∧ post = [.perrorCall "write(fd)" e]) ∨
      (f = STDOUT_FILENO ∧ post = [.perrorCall "write(STDOUT_FILENO)" e])) ∧
    (∀ pre f b post, (main k fuel w ch0).trace = pre ++ .writeCall f b .zero :: post →
      post = []) := by
  refine ⟨?_, ?_, ?_, ?_, ?_, ?_, ?_⟩
  · intro h
    obtain ⟨e, h1, h2⟩ := c_open_fail k "/dev/ttyUSB0" O_RDWR (Proc.init w ch0) h
    refine ⟨e, ?_⟩
    rw [main_of_openFails k fuel w ch0 h, (perror_exit_trace _ _ _).1]
    unfold openStage
    rw [h1, h2]
    rfl
  · intro h
    obtain ⟨e, he⟩ := fcntl_fail_then_perror k _ _ _ _ "nonblock(fd)" (-1) h.2
    exact ⟨_, _, e, (congrArg Proc.trace (main_of_deviceModeFails k fuel w ch0 h)).trans he⟩
  · intro h
    obtain ⟨e, he⟩ := fcntl_fail_then_perror k _ _ _ _ "nonblock(STDIN_FILENO)" (-1) h.2.2
    exact ⟨_, _, e, (congrArg Proc.trace (main_of_stdinModeFails k fuel w ch0 h)).trans he⟩
  · intro h
    obtain ⟨e, he⟩ := fcntl_fail_then_perror k _ _ _ _ "fcntl()" (-1) h.2.2.2
    exact ⟨_, _, e, (congrArg Proc.trace (main_of_fcntlFails k fuel w ch0 h)).trans he⟩
  · intro pre f e post ht he
    rcases main_settled k fuel w ch0 pre _ post ht (by simp [Event.terminating, he]) with h | h <;>
      rcases h with ⟨_, h1, h2⟩ | ⟨_, _, h1, _⟩ | ⟨_, h1, _⟩ <;> cases h1
    · exact Or.inl ⟨rfl, h2⟩
    · exact Or.inr ⟨rfl, h2⟩
  · intro pre f b e post ht
    rcases main_settled k fuel w ch0 pre _ post ht rfl with h | h <;>
      rcases h with ⟨_, h1, _⟩ | ⟨_, _, h1, h2⟩ | ⟨_, h1, _⟩ <;> cases h1
    · exact Or.inl ⟨rfl, h2⟩
    · exact Or.inr ⟨rfl, h2⟩
  · intro pre f b post ht
    rcases main_settled k fuel w ch0 pre _ post ht rfl with h | h <;>
      rcases h with ⟨_, h1, _⟩ | ⟨_, _, h1, _⟩ | ⟨_, h1, h2⟩ <;> cases h1 <;> exact h2

/-- Witness of claim C5 as amended: the write to standard output fails with `EPIPE` and
the run ends with the diagnostic of that write. -/
theorem diagnostic_on_errors_witness :
    (main scriptKernel 3 stdoutBroken 0).trace.take 10 ++
        .writeCall STDOUT_FILENO 66 (.fail EPIPE) :: [.perrorCall "write(STDOUT_FILENO)" EPIPE] =
      (main scriptKernel 3 stdoutBroken 0).trace ∧
    ((STDOUT_FILENO = deviceFd scriptKernel stdoutBroken 0 ∧
        [Event.perrorCall "write(STDOUT_FILENO)" EPIPE] = [.perrorCall "write(fd)" EPIPE]) ∨
      (STDOUT_FILENO = STDOUT_FILENO ∧
        [Event.perrorCall "write(STDOUT_FILENO)" EPIPE] =
          [.perrorCall "write(STDOUT_FILENO)" EPIPE])) :=
  ⟨by decide, (diagnostic_on_errors scriptKernel 3 stdoutBroken 0).2.2.2.2.2.1
    ((main scriptKernel 3 stdoutBroken 0).trace.take 10) STDOUT_FILENO 66 EPIPE
    [.perrorCall "write(STDOUT_FILENO)" EPIPE] (by decide)⟩

/-- Claim C6: an iteration in which the read on standard input and the read on the
device both report `EAGAIN` makes those two reads and nothing else, and does
not leave the loop; after any number `n` of such iterations in a row the loop
is still running, no write has been made and the bytes written to every
descriptor are unchanged. -/
theorem idle_behaviour {σ : Type} (k : Kernel σ) (fd : Int) (n : Nat) (p : Proc σ)
    (h : readsGive k fd (.fail EAGAIN) (.fail EAGAIN) n p = true) :
    (0 < n → (iteration k fd p).1 = false ∧
      newEvents p (iteration k fd p).2 =
        [.readCall STDIN_FILENO (.fail EAGAIN), .readCall fd (.fail EAGAIN)]) ∧
    (relayLoop k fd n p).1 = false ∧
    (∀ e ∈ newEvents p (relayLoop k fd n p).2, e.isWrite = false) ∧
    (newEvents p (relayLoop k fd n p).2).length = 2 * n ∧
    (∀ f, writtenTo f (relayLoop k fd n p).2.trace = writtenTo f p.trace) := by
  obtain ⟨hb, evs, ht, hl, hall⟩ :=
    relayLoop_nothing k fd (.fail EAGAIN) (.fail EAGAIN) (by simp [ReadOutcome.nothing])
      (by simp [ReadOutcome.nothing]) n p h
  have hw : ∀ e ∈ evs, e.isWrite = false := by
    intro e he
    rcases hall e he with rfl | rfl <;> rfl
  refine ⟨?_, hb, ?_, ?_, ?_⟩
  · intro hn
    obtain ⟨m, rfl⟩ : ∃ m, n = m + 1 := ⟨n - 1, by omega⟩
    simp only [readsGive, Bool.and_eq_true, decide_eq_true_eq] at h
    obtain ⟨h1, h2⟩ := iteration_nothing k fd p _ _ h.1.1 h.1.2 (by simp [ReadOutcome.nothing])
      (by simp [ReadOutcome.nothing])
    exact ⟨h1, newEvents_of_append h2⟩
  · rw [newEvents_of_append ht]; exact hw
  · rw [newEvents_of_append ht]; exact hl
  · intro f
    rw [ht, writtenTo_append, writtenTo_of_no_write f evs hw, List.append_nil]

/-- Witness of claim C6: three idle iterations after a successful startup. -/
theorem idle_behaviour_witness :
    readsGive scriptKernel 3 (.fail EAGAIN) (.fail EAGAIN) 3
      (loopEntry scriptKernel idleScript 0) = true ∧
    (relayLoop scriptKernel 3 3 (loopEntry scriptKernel idleScript 0)).1 = false :=
  ⟨by decide, (idle_behaviour scriptKernel 3 3 (loopEntry scriptKernel idleScript 0)
    (by decide)).2.1⟩

/-- Claim C10: a read that returns 0 is ignored without a word.  When the read on
standard input returns 0 the first half of the iteration is that read alone
(no write to the device, no diagnostic, no `break`) and the iteration goes on
to read the device; when the read on the device returns 0 the second half is
that read alone and the loop is not left.  After any number of iterations in
which both reads return 0 the loop is still running, and it has made no write
and printed no diagnostic. -/
theorem eof_is_ignored {σ : Type} (k : Kernel σ) (fd : Int) :
    (∀ p : Proc σ, (k.sysRead STDIN_FILENO p.world).1 = .eof →
      (stdinToDevice k fd p).1 = false ∧
      newEvents p (stdinToDevice k fd p).2 = [.readCall STDIN_FILENO .eof] ∧
      iteration k fd p = deviceToStdout k fd (stdinToDevice k fd p).2) ∧
    (∀ q : Proc σ, (k.sysRead fd q.world).1 = .eof →
      (deviceToStdout k fd q).1 = false ∧
      newEvents q (deviceToStdout k fd q).2 = [.readCall fd .eof]) ∧
    (∀ (n : Nat) (p : Proc σ), readsGive k fd .eof .eof n p = true →
      (relayLoop k fd n p).1 = false ∧
      (newEvents p (relayLoop k fd n p).2).length = 2 * n ∧
      ∀ e ∈ newEvents p (relayLoop k fd n p).2, e.isWrite = false ∧ e.isPerror = false) := by
  refine ⟨?_, ?_, ?_⟩
  · intro p h
    obtain ⟨h1, h2, _⟩ :=
      transfer_nothing k STDIN_FILENO fd "read(STDIN_FILENO)" "write(fd)" p .eof h rfl
    rw [← stdinToDevice_eq_transfer] at h1
    refine ⟨by rw [h1], ?_, ?_⟩
    · rw [h1]; exact newEvents_of_append h2
    · unfold iteration
      simp only [h1, Bool.false_eq_true, if_false]
  · intro q h
    obtain ⟨h1, h2, _⟩ :=
      transfer_nothing k fd STDOUT_FILENO "read(fd)" "write(STDOUT_FILENO)" q .eof h rfl
    rw [← deviceToStdout_eq_transfer] at h1
    exact ⟨by rw [h1], by rw [h1]; exact newEvents_of_append h2⟩
  · intro n p h
    obtain ⟨hb, evs, ht, hl, hall⟩ := relayLoop_nothing k fd .eof .eof rfl rfl n p h
    refine ⟨hb, ?_, ?_⟩
    · rw [newEvents_of_append ht]; exact hl
    · rw [newEvents_of_append ht]
      intro e he
      rcases hall e he with rfl | rfl <;> exact ⟨rfl, rfl⟩

/-- Witness of claim C10: three iterations in which both reads return 0. -/
theorem eof_is_ignored_witness :
    readsGive scriptKernel 3 .eof .eof 3 (loopEntry scriptKernel closedScript 0) = true ∧
    (relayLoop scriptKernel 3 3 (loopEntry scriptKernel closedScript 0)).1 = false :=
  ⟨by decide, ((eof_is_ignored scriptKernel 3).2.2 3 (loopEntry scriptKernel closedScript 0)
    (by decide)).1⟩

/-- Claim C9: the calls of one iteration.  The iteration starts with the read on
standard input; its reads are that read alone or that read followed by one
read on the device, so at most one byte is read from each source and the
transfer from standard input to the device comes first.  Every write comes
right after a read that returned one byte, carries exactly that byte, and
goes to the device after a read on standard input, to standard output after
a read on the device; the content of `ch` before the iteration plays no
part. -/
theorem iteration_shape {σ : Type} (k : Kernel σ) (fd : Int) (p : Proc σ) :
    (∃ r1, (newEvents p (iteration k fd p).2).head? = some (.readCall STDIN_FILENO r1) ∧
      ((newEvents p (iteration k fd p).2).filter Event.isRead = [.readCall STDIN_FILENO r1] ∨
       ∃ r2, (newEvents p (iteration k fd p).2).filter Event.isRead =
         [.readCall STDIN_FILENO r1, .readCall fd r2])) ∧
    (∀ pre f b o post,
      newEvents p (iteration k fd p).2 = pre ++ .writeCall f b o :: post →
      (pre = [.readCall STDIN_FILENO (.data b)] ∧ f = fd) ∨
      (∃ pre', pre = pre' ++ [.readCall fd (.data b)] ∧ f = STDOUT_FILENO)) := by
  obtain ⟨evs, h1, h2⟩ := iteration_run k fd p
  rw [newEvents_of_append h1]
  generalize (iteration k fd p).1 = br at h2
  cases h2 with
  | stopFirst a h =>
    refine ⟨?_, ?_⟩
    · obtain ⟨r, hr, hh⟩ := halfRun_reads h
      exact ⟨r, hh, Or.inl hr⟩
    · intro pre f b o post ht
      exact Or.inl (halfRun_write h pre f b o post ht)
  | both a b _ ha hb =>
    refine ⟨?_, ?_⟩
    · obtain ⟨r1, hr1, hh1⟩ := halfRun_reads ha
      obtain ⟨r2, hr2, _⟩ := halfRun_reads hb
      refine ⟨r1, ?_, Or.inr ⟨r2, ?_⟩⟩
      · cases a with
        | nil => simp at hh1
        | cons x t => simpa using hh1
      · rw [List.filter_append, hr1, hr2]; rfl
    · intro pre f c o post ht
      rcases List.append_eq_append_iff.1 ht with ⟨a', e1, e2⟩ | ⟨c', e1, e2⟩
      · obtain ⟨h3, h4⟩ := halfRun_write hb a' f c o post e2
        exact Or.inr ⟨a, by rw [e1, h3], h4⟩
      · cases c' with
        | nil =>
          have := (halfRun_write hb [] f c o post (by simpa using e2.symm)).1
          simp at this
        | cons x rest' =>
          simp only [List.cons_append, List.cons.injEq] at e2
          obtain ⟨rfl, -⟩ := e2
          exact Or.inl (halfRun_write ha pre f c o rest' e1)

/-- Claim C1: with an echoing device that returns at once every byte written to it,
and every write succeeding, the bytes `bs` typed on standard input come out on
standard output unchanged: after `n` iterations standard output has received
the first `n` bytes of `bs` in order, after `length bs` iterations exactly
`bs`, and further iterations write nothing more.  The loop never stops. -/
theorem echo_fidelity (bs : List Byte) (ch0 : Byte) :
    (∀ n, (main wireKernel n (echoWorld bs) ch0).status = none ∧
      (main wireKernel n (echoWorld bs) ch0).world.stdout = bs.take n ∧
      writtenTo STDOUT_FILENO (main wireKernel n (echoWorld bs) ch0).trace = bs.take n ∧
      writeCalls STDOUT_FILENO (main wireKernel n (echoWorld bs) ch0).trace =
        (bs.take n).map (fun b => (b, WriteOutcome.done))) ∧
    (main wireKernel bs.length (echoWorld bs) ch0).world.stdout = bs ∧
    writtenTo STDOUT_FILENO (main wireKernel bs.length (echoWorld bs) ch0).trace = bs ∧
    (∀ m, (main wireKernel (bs.length + m) (echoWorld bs) ch0).world.stdout = bs ∧
      writtenTo STDOUT_FILENO (main wireKernel (bs.length + m) (echoWorld bs) ch0).trace = bs ∧
      writeCalls STDOUT_FILENO (main wireKernel (bs.length + m) (echoWorld bs) ch0).trace =
        bs.map (fun b => (b, WriteOutcome.done))) := by
  have key : ∀ n, (main wireKernel n (echoWorld bs) ch0).status = none ∧
      (main wireKernel n (echoWorld bs) ch0).world.stdout = bs.take n ∧
      writtenTo STDOUT_FILENO (main wireKernel n (echoWorld bs) ch0).trace = bs.take n ∧
      writeCalls STDOUT_FILENO (main wireKernel n (echoWorld bs) ch0).trace =
        (bs.take n).map (fun b => (b, WriteOutcome.done)) := by
    intro n
    obtain ⟨h1, h2, h3, h4⟩ :=
      wire_loop_echo n bs [] [] (loopEntry wireKernel (echoWorld bs) ch0) rfl
    rw [wire_main n _ ch0 h1]
    refine ⟨by rw [relayLoop_status, loopEntry_status], by rw [h2]; simp, ?_, ?_⟩
    · rw [h3, (wire_loopEntry _ ch0).2.1, List.nil_append]
    · rw [h4, (wire_loopEntry _ ch0).2.2, List.nil_append]
  refine ⟨key, ?_, ?_, ?_⟩
  · rw [(key bs.length).2.1, List.take_length]
  · rw [(key bs.length).2.2.1, List.take_length]
  · intro m
    have ht : bs.take (bs.length + m) = bs := List.take_of_length_le (Nat.le_add_right _ _)
    rw [(key _).2.1, (key _).2.2.1, (key _).2.2.2, ht]
    exact ⟨rfl, rfl, rfl⟩

/-- Claim C7: the two directions work alone.  (i) When nothing is typed and the device
delivers `xs`, one byte per read, standard output receives `xs` in order (the
first `n` bytes after `n` iterations) and no write is made on the device.
(ii) When `xs` is typed and the device never has data, the device receives `xs`
in order and no write is made on standard output.  The loop never stops. -/
theorem directions_independent (xs : List Byte) (ch0 : Byte) :
    (∀ echo n,
      (main wireKernel n (deviceOnlyWorld xs echo) ch0).status = none ∧
      (main wireKernel n (deviceOnlyWorld xs echo) ch0).world.stdout = xs.take n ∧
      (main wireKernel n (deviceOnlyWorld xs echo) ch0).world.sent = [] ∧
      writeCalls STDOUT_FILENO (main wireKernel n (deviceOnlyWorld xs echo) ch0).trace =
        (xs.take n).map (fun b => (b, WriteOutcome.done)) ∧
      writeCalls DEVICE_FD (main wireKernel n (deviceOnlyWorld xs echo) ch0).trace = []) ∧
    (∀ echo m,
      (main wireKernel (xs.length + m) (deviceOnlyWorld xs echo) ch0).world.stdout = xs ∧
      writeCalls STDOUT_FILENO
          (main wireKernel (xs.length + m) (deviceOnlyWorld xs echo) ch0).trace =
        xs.map (fun b => (b, WriteOutcome.done))) ∧
    (∀ n,
      (main wireKernel n (stdinOnlyWorld xs) ch0).status = none ∧
      (main wireKernel n (stdinOnlyWorld xs) ch0).world.sent = xs.take n ∧
      (main wireKernel n (stdinOnlyWorld xs) ch0).world.stdout = [] ∧
      writeCalls DEVICE_FD (main wireKernel n (stdinOnlyWorld xs) ch0).trace =
        (xs.take n).map (fun b => (b, WriteOutcome.done)) ∧
      writeCalls STDOUT_FILENO (main wireKernel n (stdinOnlyWorld xs) ch0).trace = []) ∧
    (∀ m,
      (main wireKernel (xs.length + m) (stdinOnlyWorld xs) ch0).world.sent = xs ∧
      writeCalls DEVICE_FD (main wireKernel (xs.length + m) (stdinOnlyWorld xs) ch0).trace =
        xs.map (fun b => (b, WriteOutcome.done))) := by
  have ht : ∀ m, xs.take (xs.length + m) = xs := fun m =>
    List.take_of_length_le (Nat.le_add_right _ _)
  have keyD : ∀ echo n,
      (main wireKernel n (deviceOnlyWorld xs echo) ch0).status = none ∧
      (main wireKernel n (deviceOnlyWorld xs echo) ch0).world.stdout = xs.take n ∧
      (main wireKernel n (deviceOnlyWorld xs echo) ch0).world.sent = [] ∧
      writeCalls STDOUT_FILENO (main wireKernel n (deviceOnlyWorld xs echo) ch0).trace =
        (xs.take n).map (fun b => (b, WriteOutcome.done)) ∧
      writeCalls DEVICE_FD (main wireKernel n (deviceOnlyWorld xs echo) ch0).trace = [] := by
    intro echo n
    obtain ⟨h1, h2, h3, h4⟩ :=
      wire_loop_device n xs [] [] echo (loopEntry wireKernel (deviceOnlyWorld xs echo) ch0) rfl
    rw [wire_main n _ ch0 h1]
    refine ⟨by rw [relayLoop_status, loopEntry_status], by rw [h2]; simp, by rw [h2], ?_, ?_⟩
    · rw [h3, (wire_loopEntry _ ch0).2.2, List.nil_append]
    · rw [h4, (wire_loopEntry _ ch0).2.2]
  have keyS : ∀ n,
      (main wireKernel n (stdinOnlyWorld xs) ch0).status = none ∧
      (main wireKernel n (stdinOnlyWorld xs) ch0).world.sent = xs.take n ∧
      (main wireKernel n (stdinOnlyWorld xs) ch0).world.stdout = [] ∧
      writeCalls DEVICE_FD (main wireKernel n (stdinOnlyWorld xs) ch0).trace =
        (xs.take n).map (fun b => (b, WriteOutcome.done)) ∧
      writeCalls STDOUT_FILENO (main wireKernel n (stdinOnlyWorld xs) ch0).trace = [] := by
    intro n
    obtain ⟨h1, h2, h3, h4⟩ :=
      wire_loop_stdin n xs [] [] (loopEntry wireKernel (stdinOnlyWorld xs) ch0) rfl
    rw [wire_main n _ ch0 h1]
    refine ⟨by rw [relayLoop_status, loopEntry_status], by rw [h2]; simp, by rw [h2], ?_, ?_⟩
    · rw [h3, (wire_loopEntry _ ch0).2.2, List.nil_append]
    · rw [h4, (wire_loopEntry _ ch0).2.2]
  refine ⟨keyD, ?_, keyS, ?_⟩
  · intro echo m
    rw [(keyD echo _).2.1, (keyD echo _).2.2.2.1, ht]
    exact ⟨rfl, rfl⟩
  · intro m
    rw [(keyS _).2.1, (keyS _).2.2.2.1, ht]
    exact ⟨rfl, rfl⟩

end AustereTerminal
